import Mathlib

/-!
Verification of the tk-sketchbook integration plugin.

The development shallowly embeds the plugin's Python modules:

* `python/tk_sketchbook/operations.py` (`SketchBookOperations`),
* `python/tk_sketchbook/menu.py` (`SketchBookMenu`),
* `engine.py` (`SketchBookEngine`),
* `hooks/tk-multi-workfiles2/basic/scene_operation.py`,
* `hooks/tk-multi-shotgunpanel/basic/scene_actions.py`.

Python strings are modelled as `List Char`; `str.replace` and `str.split`
are reimplemented with their CPython semantics (left-to-right,
non-overlapping matches).  Fallible Python code is modelled in
`Except PyErr`; the global namespace of a module is modelled explicitly as
a partial map from names to values, so that an unbound name produces a
`NameError` exactly as in CPython.
-/

/-- The Python exceptions the embedded code can raise. -/
inductive PyErr where
  /-- Python `NameError: name '<n>' is not defined`. -/
  | nameError (n : String)
  /-- A plain `Exception(<msg>)` raised by the plugin's own code. -/
  | exception (msg : String)
  /-- Python `ValueError: too many values to unpack`. -/
  | valueError
  /-- Python `KeyError` from a failed dict subscript. -/
  | keyError (k : String)
  /-- Python `TypeError`. -/
  | typeError (msg : String)
  deriving DecidableEq, Repr

namespace PyStr

/-- The test `isPre p s` is true when the pattern `p` matches at the start of `s`
(Python: `s.startswith(p)`). -/
def isPre : List Char → List Char → Bool
  | [], _ => true
  | _ :: _, [] => false
  | a :: p, b :: s => a == b && isPre p s

/-- The test `occursB p s` is true when `p` matches somewhere in `s`
(Python: `p in s`). -/
def occursB (p : List Char) : List Char → Bool
  | [] => isPre p []
  | c :: s => isPre p (c :: s) || occursB p s

/-- The predicate `Occurs p s` holds when `s` contains `p` as a contiguous segment. -/
def Occurs (p s : List Char) : Prop := ∃ u v, s = u ++ p ++ v

/-- Python `s.replace(p, r)` for a non-empty pattern `p`: scan left to
right, replacing each non-overlapping match of `p` by `r`. -/
def replaceOne (p r : List Char) : List Char → List Char
  | [] => []
  | c :: s =>
      if h : p ≠ [] ∧ isPre p (c :: s) then
        r ++ replaceOne p r ((c :: s).drop p.length)
      else
        c :: replaceOne p r s
  termination_by s => s.length
  decreasing_by
    · simp only [List.length_drop, List.length_cons]
      have : 0 < p.length := List.length_pos.mpr h.1
      omega
    · simp

/-- Python `s.split(p)` for a non-empty separator `p`. -/
def splitOnSub (p : List Char) : List Char → List (List Char)
  | [] => [[]]
  | c :: s =>
      if h : p ≠ [] ∧ isPre p (c :: s) then
        [] :: splitOnSub p ((c :: s).drop p.length)
      else
        match splitOnSub p s with
        | [] => [[c]]
        | t :: ts => (c :: t) :: ts
  termination_by s => s.length
  decreasing_by
    · simp only [List.length_drop, List.length_cons]
      have : 0 < p.length := List.length_pos.mpr h.1
      omega
    · simp

/-- Number of non-overlapping, left-to-right matches of `p` in `s`. -/
def occCount (p : List Char) : List Char → Nat
  | [] => 0
  | c :: s =>
      if h : p ≠ [] ∧ isPre p (c :: s) then
        1 + occCount p ((c :: s).drop p.length)
      else
        occCount p s
  termination_by s => s.length
  decreasing_by
    · simp only [List.length_drop, List.length_cons]
      have : 0 < p.length := List.length_pos.mpr h.1
      omega
    · simp

/-- First pattern of the list matching at the start of `s`, skipping
empty patterns. -/
def findTok (ts : List (List Char × List Char)) (s : List Char) :
    Option (List Char × List Char) :=
  ts.find? (fun t => !t.1.isEmpty && isPre t.1 s)

/-- One simultaneous left-to-right pass replacing, at each position, the
first listed pattern that matches there.  This is the specification-side
"replace every occurrence of each token" function. -/
def simul (ts : List (List Char × List Char)) : List Char → List Char
  | [] => []
  | c :: s =>
      match h : findTok ts (c :: s) with
      | some t => t.2 ++ simul ts ((c :: s).drop t.1.length)
      | none => c :: simul ts s
  termination_by s => s.length
  decreasing_by
    · simp only [List.length_drop, List.length_cons]
      have hp := List.find?_some h
      have hne : t.1 ≠ [] := by
        intro hnil
        rw [Bool.and_eq_true] at hp
        rw [hnil] at hp
        simp at hp
      have : 0 < t.1.length := List.length_pos.mpr hne
      omega
    · simp

theorem isPre_iff_exists {p s : List Char} :
    isPre p s = true ↔ ∃ t, s = p ++ t := by
  induction p generalizing s with
  | nil => simp [isPre]
  | cons a p ih =>
    cases s with
    | nil => simp [isPre]
    | cons b s =>
      simp only [isPre, Bool.and_eq_true, beq_iff_eq, ih, List.cons_append,
        List.cons.injEq]
      constructor
      · rintro ⟨rfl, t, rfl⟩
        exact ⟨t, rfl, rfl⟩
      · rintro ⟨t, rfl, rfl⟩
        exact ⟨rfl, t, rfl⟩

theorem isPre_append_self {p t : List Char} : isPre p (p ++ t) = true :=
  isPre_iff_exists.mpr ⟨t, rfl⟩

theorem isPre_mono {a b w : List Char} (h : isPre a b = true) :
    isPre a (b ++ w) = true := by
  rcases isPre_iff_exists.mp h with ⟨t, rfl⟩
  rw [List.append_assoc]
  exact isPre_append_self

theorem isPre_append_cancel {a b c : List Char} :
    isPre (a ++ b) (a ++ c) = true ↔ isPre b c = true := by
  induction a with
  | nil => simp
  | cons x a ih => simpa [isPre] using ih

theorem isPre_length_le {p s : List Char} (h : isPre p s = true) :
    p.length ≤ s.length := by
  rcases isPre_iff_exists.mp h with ⟨t, rfl⟩
  simp

theorem isPre_append_elim {a b z : List Char}
    (h : isPre a (b ++ z) = true) :
    isPre a b = true ∨ isPre b a = true := by
  induction a generalizing b with
  | nil => left; rfl
  | cons x a ih =>
    cases b with
    | nil => right; rfl
    | cons y b =>
      simp only [List.cons_append, isPre, Bool.and_eq_true, beq_iff_eq] at h ⊢
      rcases ih h.2 with h2 | h2
      · exact Or.inl ⟨h.1, h2⟩
      · exact Or.inr ⟨h.1.symm, h2⟩

theorem occurs_cons_iff {p : List Char} {c : Char} {s : List Char} :
    Occurs p (c :: s) ↔ isPre p (c :: s) = true ∨ Occurs p s := by
  constructor
  · rintro ⟨u, v, huv⟩
    cases u with
    | nil =>
      left
      simp only [List.nil_append] at huv
      rw [huv]
      exact isPre_append_self
    | cons d u =>
      right
      rw [List.cons_append, List.cons_append] at huv
      injection huv with h1 h2
      exact ⟨u, v, h2⟩
  · rintro (h | ⟨u, v, rfl⟩)
    · rcases isPre_iff_exists.mp h with ⟨t, ht⟩
      exact ⟨[], t, by simpa using ht⟩
    · exact ⟨c :: u, v, by simp⟩

theorem not_occurs_nil {p : List Char} (hp : p ≠ []) : ¬ Occurs p [] := by
  rintro ⟨u, v, h⟩
  rcases List.append_eq_nil.mp h.symm with ⟨h1, h2⟩
  exact hp (List.append_eq_nil.mp h1).2

theorem occursB_iff_occurs {p s : List Char} (hp : p ≠ []) :
    occursB p s = true ↔ Occurs p s := by
  induction s with
  | nil =>
    simp only [occursB]
    cases p with
    | nil => exact absurd rfl hp
    | cons a p => simp [isPre, not_occurs_nil hp]
  | cons c s ih =>
    simp only [occursB, Bool.or_eq_true, occurs_cons_iff, ih]

theorem replaceOne_nil {p r : List Char} : replaceOne p r [] = [] := by
  rw [replaceOne]

theorem splitOnSub_nil {p : List Char} : splitOnSub p [] = [[]] := by
  rw [splitOnSub]

theorem splitOnSub_cons_pos {p : List Char} {c : Char} {s : List Char}
    (hp : p ≠ []) (h : isPre p (c :: s) = true) :
    splitOnSub p (c :: s) = [] :: splitOnSub p ((c :: s).drop p.length) := by
  rw [splitOnSub, dif_pos ⟨hp, h⟩]

theorem splitOnSub_ne_nil {p : List Char} : ∀ {s}, splitOnSub p s ≠ [] := by
  intro s
  cases s with
  | nil => rw [splitOnSub_nil]; simp
  | cons c s =>
    rw [splitOnSub]
    by_cases h : p ≠ [] ∧ isPre p (c :: s) = true
    · rw [dif_pos h]; simp
    · rw [dif_neg h]
      cases hs : splitOnSub p s <;> simp

theorem splitOnSub_cons_neg {p : List Char} {c : Char} {s : List Char}
    (h : ¬ (p ≠ [] ∧ isPre p (c :: s) = true)) {t : List Char}
    {ts : List (List Char)} (h2 : splitOnSub p s = t :: ts) :
    splitOnSub p (c :: s) = (c :: t) :: ts := by
  rw [splitOnSub, dif_neg h, h2]

theorem splitOnSub_of_not_occurs {p : List Char} :
    ∀ {s}, ¬ Occurs p s → splitOnSub p s = [s] := by
  intro s
  induction s with
  | nil => intro _; exact splitOnSub_nil
  | cons c s ih =>
    intro h
    rw [occurs_cons_iff] at h
    push_neg at h
    have h2 := ih h.2
    exact splitOnSub_cons_neg (by simp [h.1]) h2

theorem occurs_of_isPre {p s : List Char} (h : isPre p s = true) :
    Occurs p s := by
  rcases isPre_iff_exists.mp h with ⟨t, rfl⟩
  exact ⟨[], t, rfl⟩

theorem occurs_refl (p : List Char) : Occurs p p := ⟨[], [], by simp⟩

theorem splitOnSub_pre {p : List Char} (hp : p ≠ []) {s : List Char}
    (h : isPre p s = true) :
    splitOnSub p s = [] :: splitOnSub p (s.drop p.length) := by
  cases s with
  | nil =>
    cases p with
    | nil => exact absurd rfl hp
    | cons a q => simp [isPre] at h
  | cons c cs => exact splitOnSub_cons_pos hp h

theorem splitOnSub_sep {p : List Char} (hp : p ≠ [])
    (hbf : ∀ k, 0 < k → k < p.length → isPre (p.drop k) p = false) :
    ∀ {n b : List Char}, ¬ Occurs p n →
      splitOnSub p (n ++ p ++ b) = n :: splitOnSub p b := by
  intro n
  induction n with
  | nil =>
    intro b _
    rw [List.nil_append, splitOnSub_pre hp isPre_append_self,
      List.drop_left]
  | cons c n2 ih =>
    intro b hocc
    have hocc2 : ¬ Occurs p n2 := by
      intro hx
      exact hocc (occurs_cons_iff.mpr (Or.inr hx))
    have hnegpre : isPre p (c :: (n2 ++ (p ++ b))) = false := by
      cases hx : isPre p (c :: (n2 ++ (p ++ b))) with
      | false => rfl
      | true =>
        exfalso
        have hx2 : isPre p ((c :: n2) ++ (p ++ b)) = true := hx
        rcases isPre_append_elim hx2 with hy | hy
        · exact hocc (occurs_of_isPre hy)
        · obtain ⟨ext, hext⟩ := isPre_iff_exists.mp hy
          have hextp : isPre ext (p ++ b) = true := by
            nth_rewrite 1 [hext] at hx2
            exact isPre_append_cancel.mp hx2
          cases hextc : ext with
          | nil =>
            apply hocc
            rw [hextc, List.append_nil] at hext
            rw [← hext]
            exact occurs_refl p
          | cons e1 e2 =>
            rcases isPre_append_elim hextp with hz | hz
            · have hklen : (c :: n2).length < p.length := by
                have hlen := congrArg List.length hext
                rw [List.length_append, hextc] at hlen
                simp only [List.length_cons] at hlen
                simp only [List.length_cons]
                omega
              have hdropk : p.drop (c :: n2).length = ext := by
                rw [hext, List.drop_left]
              have hb := hbf (c :: n2).length (by simp) hklen
              rw [hdropk, hz] at hb
              exact Bool.true_eq_false ▸ hb
            · have hlen := congrArg List.length hext
              rw [List.length_append] at hlen
              have hle := isPre_length_le hz
              simp only [List.length_cons] at hlen
              omega
    have hsh : (c :: n2) ++ p ++ b = c :: (n2 ++ p ++ b) := rfl
    rw [hsh]
    refine splitOnSub_cons_neg ?_ (ih hocc2)
    rintro ⟨h1, hcon2⟩
    rw [List.append_assoc] at hcon2
    rw [hnegpre] at hcon2
    exact Bool.false_ne_true hcon2

theorem occCount_nil {p : List Char} : occCount p [] = 0 := by
  rw [occCount]

theorem occCount_cons_pos {p : List Char} {c : Char} {s : List Char}
    (hp : p ≠ []) (h : isPre p (c :: s) = true) :
    occCount p (c :: s) = 1 + occCount p ((c :: s).drop p.length) := by
  rw [occCount, dif_pos ⟨hp, h⟩]

theorem occCount_cons_neg {p : List Char} {c : Char} {s : List Char}
    (h : ¬ (p ≠ [] ∧ isPre p (c :: s) = true)) :
    occCount p (c :: s) = occCount p s := by
  rw [occCount, dif_neg h]

theorem splitOnSub_length {p : List Char} :
    ∀ {s}, (splitOnSub p s).length = occCount p s + 1 := by
  have main : ∀ n (s : List Char), s.length ≤ n →
      (splitOnSub p s).length = occCount p s + 1 := by
    intro n
    induction n with
    | zero =>
      intro s hs
      have : s = [] := List.length_eq_zero.mp (Nat.le_zero.mp hs)
      subst this
      rw [splitOnSub_nil, occCount_nil]
      rfl
    | succ n ih =>
      intro s hs
      cases s with
      | nil =>
        rw [splitOnSub_nil, occCount_nil]
        rfl
      | cons c s =>
        by_cases h : p ≠ [] ∧ isPre p (c :: s) = true
        · rw [splitOnSub_cons_pos h.1 h.2, occCount_cons_pos h.1 h.2]
          have hplen : 0 < p.length := List.length_pos.mpr h.1
          have hlen2 : ((c :: s).drop p.length).length ≤ n := by
            rw [List.length_drop]
            simp only [List.length_cons]
            simp only [List.length_cons] at hs
            omega
          have hrec := ih ((c :: s).drop p.length) hlen2
          simp only [List.length_cons, hrec]
          omega
        · rw [occCount_cons_neg h]
          cases h2 : splitOnSub p s with
          | nil => exact absurd h2 splitOnSub_ne_nil
          | cons t ts =>
            rw [splitOnSub_cons_neg h h2]
            have hrec := ih s (by
              simp only [List.length_cons] at hs
              omega)
            rw [h2] at hrec
            simpa using hrec
  intro s
  exact main s.length s le_rfl

theorem occursB_iff_occCount_pos {p : List Char} (hp : p ≠ []) :
    ∀ {s}, occursB p s = true ↔ 0 < occCount p s := by
  have hnil : occursB p [] = false := by
    cases p with
    | nil => exact absurd rfl hp
    | cons a q => simp [occursB, isPre]
  have main : ∀ n (s : List Char), s.length ≤ n →
      (occursB p s = true ↔ 0 < occCount p s) := by
    intro n
    induction n with
    | zero =>
      intro s hs
      have : s = [] := List.length_eq_zero.mp (Nat.le_zero.mp hs)
      subst this
      rw [occCount_nil, hnil]
      simp
    | succ n ih =>
      intro s hs
      cases s with
      | nil =>
        rw [occCount_nil, hnil]
        simp
      | cons c s =>
        by_cases h : isPre p (c :: s) = true
        · rw [occCount_cons_pos hp h]
          simp only [occursB, h, Bool.true_or]
          exact iff_of_true trivial (by omega)
        · have hcf : isPre p (c :: s) = false := by
            rcases Bool.eq_false_or_eq_true (isPre p (c :: s)) with hx | hx
            · exact absurd hx h
            · exact hx
          rw [occCount_cons_neg (by simp [hcf])]
          simp only [occursB, hcf, Bool.false_or]
          exact ih s (by
            simp only [List.length_cons] at hs
            omega)
  intro s
  exact main s.length s le_rfl


theorem replaceOne_cons_pos {p r : List Char} {c : Char} {s : List Char}
    (hp : p ≠ []) (h : isPre p (c :: s) = true) :
    replaceOne p r (c :: s) = r ++ replaceOne p r ((c :: s).drop p.length) := by
  rw [replaceOne, dif_pos ⟨hp, h⟩]

theorem replaceOne_cons_nomatch {p r : List Char} {c : Char} {s : List Char}
    (h : ¬ (p ≠ [] ∧ isPre p (c :: s) = true)) :
    replaceOne p r (c :: s) = c :: replaceOne p r s := by
  rw [replaceOne, dif_neg h]

theorem replaceOne_cons_neg {p r : List Char} {c : Char} {s : List Char}
    (h : isPre p (c :: s) = false) :
    replaceOne p r (c :: s) = c :: replaceOne p r s :=
  replaceOne_cons_nomatch (by simp [h])

theorem replaceOne_single (a b : Char) :
    ∀ s : List Char, replaceOne [a] [b] s =
      s.map (fun c => if c = a then b else c) := by
  intro s
  induction s with
  | nil => rw [replaceOne_nil]; rfl
  | cons c s ih =>
    by_cases h : c = a
    · subst h
      have hpre : isPre [c] (c :: s) = true := by simp [isPre]
      rw [replaceOne_cons_pos (by simp) hpre]
      simp only [List.length_cons, List.length_nil, List.drop_succ_cons,
        List.drop_zero, List.map_cons, if_pos rfl]
      rw [ih]
      rfl
    · have hpre : isPre [a] (c :: s) = false := by
        simp only [isPre]
        rcases Bool.eq_false_or_eq_true (a == c && isPre [] s) with hx | hx
        · exfalso
          rw [Bool.and_eq_true, beq_iff_eq] at hx
          exact h hx.1.symm
        · exact hx
      rw [replaceOne_cons_neg hpre]
      simp only [List.map_cons, if_neg h]
      rw [ih]

theorem replaceOne_of_not_occurs {p r s : List Char}
    (h : ¬ Occurs p s) : replaceOne p r s = s := by
  induction s with
  | nil => exact replaceOne_nil
  | cons c s ih =>
    rw [occurs_cons_iff] at h
    push_neg at h
    rw [replaceOne_cons_neg (Bool.not_eq_true _ ▸ h.1), ih h.2]

theorem replaceOne_append_no_match {p r u v : List Char}
    (hnm : ∀ k < u.length, isPre p (List.drop k (u ++ v)) = false) :
    replaceOne p r (u ++ v) = u ++ replaceOne p r v := by
  induction u with
  | nil => rfl
  | cons c u ih =>
    have h0 : isPre p (c :: (u ++ v)) = false := by
      simpa using hnm 0 (by simp)
    rw [List.cons_append, replaceOne_cons_neg h0]
    rw [ih (fun k hk => by simpa using hnm (k + 1) (by simpa))]
    simp

theorem isPre_replaceOne_inv_aux {p r : List Char} (hr : r ≠ []) :
    ∀ n s q, s.length ≤ n → r.headI ∉ q →
      isPre q (replaceOne p r s) = true → isPre q s = true := by
  intro n
  induction n with
  | zero =>
    intro s q hs hq h
    have : s = [] := List.length_eq_zero.mp (Nat.le_zero.mp hs)
    subst this
    rwa [replaceOne_nil] at h
  | succ n ih =>
    intro s q hs hq h
    cases s with
    | nil => rwa [replaceOne_nil] at h
    | cons c s =>
      by_cases hc : p ≠ [] ∧ isPre p (c :: s) = true
      · rw [replaceOne_cons_pos hc.1 hc.2] at h
        cases q with
        | nil => rfl
        | cons qh q =>
          exfalso
          cases r with
          | nil => exact hr rfl
          | cons rh r2 =>
            rw [List.cons_append] at h
            simp only [isPre, Bool.and_eq_true, beq_iff_eq] at h
            apply hq
            rw [List.headI, ← h.1]
            exact List.mem_cons_self _ _
      · rw [replaceOne_cons_nomatch hc] at h
        cases q with
        | nil => rfl
        | cons qh q =>
          simp only [isPre, Bool.and_eq_true, beq_iff_eq] at h ⊢
          refine ⟨h.1, ih s q ?_ ?_ h.2⟩
          · simp only [List.length_cons] at hs
            omega
          · intro hmem
            exact hq (List.mem_cons_of_mem _ hmem)

theorem isPre_replaceOne_inv {p r s q : List Char} (hr : r ≠ [])
    (hq : r.headI ∉ q) (h : isPre q (replaceOne p r s) = true) :
    isPre q s = true :=
  isPre_replaceOne_inv_aux hr s.length s q le_rfl hq h

theorem headI_mem {l : List Char} (h : l ≠ []) : l.headI ∈ l := by
  cases l with
  | nil => exact absurd rfl h
  | cons a t => exact List.mem_cons_self a t

theorem find?_congr_mem {α : Type} {f g : α → Bool} :
    ∀ {l : List α}, (∀ x ∈ l, f x = g x) → l.find? f = l.find? g := by
  intro l
  induction l with
  | nil => intro _; rfl
  | cons a l ih =>
    intro h
    rw [List.find?_cons, List.find?_cons, h a (List.mem_cons_self a l)]
    cases hg : g a
    · exact ih (fun x hx => h x (List.mem_cons_of_mem _ hx))
    · rfl

theorem findTok_cons_true {t : List Char × List Char}
    {ts : List (List Char × List Char)} {s : List Char}
    (h : (!t.1.isEmpty && isPre t.1 s) = true) :
    findTok (t :: ts) s = some t := by
  rw [findTok, List.find?_cons, h]

theorem findTok_cons_false {t : List Char × List Char}
    {ts : List (List Char × List Char)} {s : List Char}
    (h : (!t.1.isEmpty && isPre t.1 s) = false) :
    findTok (t :: ts) s = findTok ts s := by
  rw [findTok, List.find?_cons, h]
  rfl

theorem findTok_nil_input {ts : List (List Char × List Char)} :
    findTok ts [] = none := by
  apply List.find?_eq_none.mpr
  intro t _
  cases hp : t.1 with
  | nil => simp [hp]
  | cons a q => simp [hp, isPre]

theorem simul_nil {ts : List (List Char × List Char)} : simul ts [] = [] := by
  rw [simul]

theorem simul_cons_none {ts : List (List Char × List Char)} {c : Char}
    {s : List Char} (h : findTok ts (c :: s) = none) :
    simul ts (c :: s) = c :: simul ts s := by
  rw [simul, h]

theorem simul_of_findTok_some {ts : List (List Char × List Char)}
    {s : List Char} {t : List Char × List Char}
    (h : findTok ts s = some t) :
    simul ts s = t.2 ++ simul ts (s.drop t.1.length) := by
  cases s with
  | nil => rw [findTok_nil_input] at h; exact absurd h (by simp)
  | cons c s => rw [simul, h]

theorem simul_append_no_match {ts : List (List Char × List Char)}
    {u v : List Char}
    (hnm : ∀ k < u.length, ∀ t ∈ ts, isPre t.1 (List.drop k (u ++ v)) = false) :
    simul ts (u ++ v) = u ++ simul ts v := by
  induction u with
  | nil => rfl
  | cons c u ih =>
    have hnone : findTok ts (c :: (u ++ v)) = none := by
      apply List.find?_eq_none.mpr
      intro t ht
      have h0 : isPre t.1 (c :: (u ++ v)) = false := by
        simpa using hnm 0 (by simp) t ht
      simp [h0]
    rw [List.cons_append, simul_cons_none hnone,
      ih (fun k hk t ht => by simpa using hnm (k + 1) (by simpa) t ht)]
    simp

/-- Side conditions under which a sequence of single-pattern replacements
(one full pass per pattern, Python `str.replace` applied once per token)
agrees with a single simultaneous pass: patterns and replacements are
non-empty, distinct patterns never overlap, no pattern's first character
occurs in a replacement, and no replacement's first character occurs in a
pattern. -/
structure SafeToks (ts : List (List Char × List Char)) : Prop where
  pat_ne : ∀ t ∈ ts, t.1 ≠ []
  rep_ne : ∀ t ∈ ts, t.2 ≠ []
  no_overlap : ∀ t ∈ ts, ∀ u ∈ ts, t.1 ≠ u.1 → ∀ k, 0 < k → k < u.1.length →
      isPre t.1 (u.1.drop k) = false ∧ isPre (u.1.drop k) t.1 = false
  head_pat_rep : ∀ t ∈ ts, ∀ u ∈ ts, t.1.headI ∉ u.2
  head_rep_pat : ∀ t ∈ ts, ∀ u ∈ ts, t.2.headI ∉ u.1

theorem SafeToks.tail {t : List Char × List Char}
    {ts : List (List Char × List Char)} (h : SafeToks (t :: ts)) :
    SafeToks ts where
  pat_ne u hu := h.pat_ne u (List.mem_cons_of_mem _ hu)
  rep_ne u hu := h.rep_ne u (List.mem_cons_of_mem _ hu)
  no_overlap u hu w hw := h.no_overlap u (List.mem_cons_of_mem _ hu) w
    (List.mem_cons_of_mem _ hw)
  head_pat_rep u hu w hw := h.head_pat_rep u (List.mem_cons_of_mem _ hu) w
    (List.mem_cons_of_mem _ hw)
  head_rep_pat u hu w hw := h.head_rep_pat u (List.mem_cons_of_mem _ hu) w
    (List.mem_cons_of_mem _ hw)

theorem bool_eq_of_imp {a b : Bool} (h1 : a = true → b = true)
    (h2 : b = true → a = true) : a = b := by
  cases a <;> cases b <;> simp_all

theorem simul_toks_nil : ∀ s : List Char, simul [] s = s := by
  intro s
  induction s with
  | nil => exact simul_nil
  | cons c cs ih =>
    have : findTok ([] : List (List Char × List Char)) (c :: cs) = none := rfl
    rw [simul_cons_none this, ih]

theorem simul_replaceOne_aux {p r : List Char}
    {rest : List (List Char × List Char)}
    (hs : SafeToks ((p, r) :: rest)) :
    ∀ n s, s.length ≤ n →
      simul rest (replaceOne p r s) = simul ((p, r) :: rest) s := by
  have hp : p ≠ [] := hs.pat_ne (p, r) (List.mem_cons_self _ _)
  have hrne : r ≠ [] := hs.rep_ne (p, r) (List.mem_cons_self _ _)
  intro n
  induction n with
  | zero =>
    intro s hlen
    have hnil : s = [] := List.length_eq_zero.mp (Nat.le_zero.mp hlen)
    subst hnil
    rw [replaceOne_nil, simul_nil, simul_nil]
  | succ n ih =>
    intro s hlen
    cases s with
    | nil => rw [replaceOne_nil, simul_nil, simul_nil]
    | cons c cs =>
      by_cases h1 : isPre p (c :: cs) = true
      · -- the head pattern matches at this position
        have e1 := replaceOne_cons_pos (r := r) hp h1
        have htest : (!p.isEmpty && isPre p (c :: cs)) = true := by
          cases p with
          | nil => exact absurd rfl hp
          | cons a q => simp [h1]
        have ef : findTok ((p, r) :: rest) (c :: cs) = some (p, r) :=
          findTok_cons_true htest
        rw [e1, simul_of_findTok_some ef]
        have hnm : ∀ k < r.length, ∀ t ∈ rest,
            isPre t.1
              (List.drop k (r ++ replaceOne p r ((c :: cs).drop p.length))) =
              false := by
          intro k hk t ht
          by_contra hcon
          rw [Bool.not_eq_false] at hcon
          rw [List.drop_append_of_le_length (le_of_lt hk)] at hcon
          have htne : t.1 ≠ [] := hs.pat_ne t (List.mem_cons_of_mem _ ht)
          have hrdne : r.drop k ≠ [] := by
            intro hx
            have hlx := congrArg List.length hx
            rw [List.length_drop] at hlx
            simp at hlx
            omega
          cases hrd : r.drop k with
          | nil => exact hrdne hrd
          | cons rh rdt =>
            cases ht1 : t.1 with
            | nil => exact htne ht1
            | cons a q =>
              rw [ht1, hrd, List.cons_append] at hcon
              simp only [isPre, Bool.and_eq_true, beq_iff_eq] at hcon
              have hmemr : rh ∈ r := by
                have : rh ∈ r.drop k := by
                  rw [hrd]; exact List.mem_cons_self _ _
                exact List.drop_subset k r this
              have hnotin := hs.head_pat_rep t (List.mem_cons_of_mem _ ht)
                (p, r) (List.mem_cons_self _ _)
              rw [ht1] at hnotin
              simp only [List.headI] at hnotin
              exact hnotin (hcon.1 ▸ hmemr)
        rw [simul_append_no_match hnm]
        congr 1
        apply ih
        have hplen : 0 < p.length := List.length_pos.mpr hp
        simp only [List.length_drop, List.length_cons]
        simp only [List.length_cons] at hlen
        omega
      · -- the head pattern does not match at this position
        have h1f : isPre p (c :: cs) = false := by
          rcases Bool.eq_false_or_eq_true (isPre p (c :: cs)) with hx | hx
          · exact absurd hx h1
          · exact hx
        have e1 := replaceOne_cons_neg (r := r) h1f
        have hheadf : (!p.isEmpty && isPre p (c :: cs)) = false := by
          simp [h1f]
        cases hf : findTok rest (c :: cs) with
        | none =>
          rw [e1]
          have hnone2 : findTok rest (c :: replaceOne p r cs) = none := by
            apply List.find?_eq_none.mpr
            intro t ht hcon
            rw [Bool.and_eq_true] at hcon
            cases ht1 : t.1 with
            | nil => rw [ht1] at hcon; simp at hcon
            | cons a q =>
              rw [ht1] at hcon
              obtain ⟨hne2, hpre⟩ := hcon
              simp only [isPre, Bool.and_eq_true, beq_iff_eq] at hpre
              have hq : isPre q cs = true := by
                apply isPre_replaceOne_inv hrne ?_ hpre.2
                have hx := hs.head_rep_pat (p, r) (List.mem_cons_self _ _) t
                  (List.mem_cons_of_mem _ ht)
                rw [ht1] at hx
                intro hmem
                exact hx (List.mem_cons_of_mem _ hmem)
              have hfn := List.find?_eq_none.mp hf t ht
              apply hfn
              rw [Bool.and_eq_true, ht1]
              refine ⟨by simp, ?_⟩
              simp [isPre, hpre.1, hq]
          rw [simul_cons_none hnone2]
          have hrestn : findTok ((p, r) :: rest) (c :: cs) = none := by
            rw [findTok_cons_false hheadf]; exact hf
          rw [simul_cons_none hrestn]
          congr 1
          apply ih
          simp only [List.length_cons] at hlen
          omega
        | some t0 =>
          obtain ⟨q, rq⟩ := t0
          have hmemq : (q, rq) ∈ rest := List.mem_of_find?_eq_some hf
          have htq := List.find?_some hf
          rw [Bool.and_eq_true] at htq
          have hqne : q ≠ [] := by
            intro hx; rw [hx] at htq; simp at htq
          have hqpre : isPre q (c :: cs) = true := htq.2
          obtain ⟨z, hsz⟩ := isPre_iff_exists.mp hqpre
          have hpq : p ≠ q := by
            intro hx
            rw [hx, hqpre] at h1f
            exact Bool.true_eq_false ▸ h1f
          have hA : replaceOne p r (c :: cs) = q ++ replaceOne p r z := by
            rw [hsz]
            apply replaceOne_append_no_match
            intro k hk
            by_contra hcon
            rw [Bool.not_eq_false] at hcon
            cases k with
            | zero =>
              rw [List.drop_zero, ← hsz, h1f] at hcon
              exact Bool.false_ne_true hcon
            | succ k2 =>
              rw [List.drop_append_of_le_length (le_of_lt hk)] at hcon
              have hov := hs.no_overlap (p, r) (List.mem_cons_self _ _)
                (q, rq) (List.mem_cons_of_mem _ hmemq) hpq (k2 + 1)
                (Nat.succ_pos _) hk
              rcases isPre_append_elim hcon with hx | hx
              · rw [hov.1] at hx; exact Bool.false_ne_true hx
              · rw [hov.2] at hx; exact Bool.false_ne_true hx
          have hTests : ∀ t ∈ rest,
              (!t.1.isEmpty && isPre t.1 (q ++ replaceOne p r z)) =
              (!t.1.isEmpty && isPre t.1 (c :: cs)) := by
            intro t ht
            suffices hiff :
                isPre t.1 (q ++ replaceOne p r z) = isPre t.1 (c :: cs) by
              rw [hiff]
            apply bool_eq_of_imp
            · -- forward: a match in the rebuilt string was already there
              intro hfw
              rcases isPre_append_elim hfw with hx | hx
              · rw [hsz]; exact isPre_mono hx
              · obtain ⟨ext, hext⟩ := isPre_iff_exists.mp hx
                have hextW : isPre ext (replaceOne p r z) = true := by
                  rw [hext] at hfw
                  exact isPre_append_cancel.mp hfw
                have hrh : r.headI ∉ ext := by
                  have hx2 := hs.head_rep_pat (p, r) (List.mem_cons_self _ _)
                    t (List.mem_cons_of_mem _ ht)
                  intro hmem
                  apply hx2
                  rw [hext]
                  exact List.mem_append.mpr (Or.inr hmem)
                have hez : isPre ext z = true :=
                  isPre_replaceOne_inv hrne hrh hextW
                rw [hsz, hext]
                exact isPre_append_cancel.mpr hez
            · -- backward: a match in the original survives the replacement
              intro hbk
              rw [hsz] at hbk
              rcases isPre_append_elim hbk with hx | hx
              · exact isPre_mono hx
              · obtain ⟨ext, hext⟩ := isPre_iff_exists.mp hx
                have hez : isPre ext z = true := by
                  rw [hext] at hbk
                  exact isPre_append_cancel.mp hbk
                obtain ⟨z2, hz2⟩ := isPre_iff_exists.mp hez
                have hptne : p ≠ t.1 := by
                  intro hx2
                  rw [hx2] at h1f
                  rw [hsz] at h1f
                  rw [hbk] at h1f
                  exact Bool.true_eq_false ▸ h1f
                have hWext : replaceOne p r z =
                    ext ++ replaceOne p r z2 := by
                  rw [hz2]
                  apply replaceOne_append_no_match
                  intro k hk
                  by_contra hcon
                  rw [Bool.not_eq_false] at hcon
                  have hdrop : List.drop k (ext ++ z2) =
                      List.drop (q.length + k) t.1 ++ z2 := by
                    rw [List.drop_append_of_le_length (le_of_lt hk), hext,
                      List.drop_append]
                  rw [hdrop] at hcon
                  have hlt : q.length + k < t.1.length := by
                    have hlext := congrArg List.length hext
                    rw [List.length_append] at hlext
                    omega
                  have hov := hs.no_overlap (p, r) (List.mem_cons_self _ _)
                    t (List.mem_cons_of_mem _ ht) hptne (q.length + k)
                    (Nat.add_pos_left (List.length_pos.mpr hqne) _) hlt
                  rcases isPre_append_elim hcon with hy | hy
                  · rw [hov.1] at hy; exact Bool.false_ne_true hy
                  · rw [hov.2] at hy; exact Bool.false_ne_true hy
                have hextW : isPre ext (replaceOne p r z) = true := by
                  rw [hWext]; exact isPre_append_self
                rw [hext]
                exact isPre_append_cancel.mpr hextW
          have hB : findTok rest (q ++ replaceOne p r z) = some (q, rq) := by
            calc findTok rest (q ++ replaceOne p r z)
                = findTok rest (c :: cs) := by
                  rw [findTok, findTok]; exact find?_congr_mem hTests
              _ = some (q, rq) := hf
          rw [hA, simul_of_findTok_some hB]
          have hdlW : (q ++ replaceOne p r z).drop q.length =
              replaceOne p r z := List.drop_left _ _
          rw [hdlW]
          have hRf : findTok ((p, r) :: rest) (c :: cs) = some (q, rq) := by
            rw [findTok_cons_false hheadf]; exact hf
          rw [simul_of_findTok_some hRf]
          have hdz : (c :: cs).drop q.length = z := by
            rw [hsz]; exact List.drop_left _ _
          rw [hdz]
          congr 1
          apply ih
          have hlq := congrArg List.length hsz
          simp only [List.length_cons, List.length_append] at hlq
          simp only [List.length_cons] at hlen
          have hql : 0 < q.length := List.length_pos.mpr hqne
          omega

theorem simul_replaceOne {p r : List Char}
    {rest : List (List Char × List Char)}
    (hs : SafeToks ((p, r) :: rest)) (s : List Char) :
    simul rest (replaceOne p r s) = simul ((p, r) :: rest) s :=
  simul_replaceOne_aux hs s.length s le_rfl

/-- Applying the tokens one at a time, each as a full left-to-right
`str.replace` pass, is the same as one simultaneous pass. -/
theorem foldl_replaceOne_eq_simul {ts : List (List Char × List Char)}
    (hs : SafeToks ts) :
    ∀ s, ts.foldl (fun acc t => replaceOne t.1 t.2 acc) s = simul ts s := by
  induction ts with
  | nil => intro s; rw [List.foldl_nil, simul_toks_nil]
  | cons t rest ih =>
    intro s
    obtain ⟨p, r⟩ := t
    rw [List.foldl_cons]
    rw [ih hs.tail (replaceOne p r s), simul_replaceOne hs]

end PyStr

open PyStr

/-- Log lines produced through `self.logger` / the module-level `logger`. -/
inductive LogEvent where
  | debug (msg : String)
  | error (msg : String)
  | warning (msg : String)
  | exception (msg : String)
  deriving DecidableEq, Repr

/-- A Qt colour as carried by a `QPalette` brush; only the RGB components
matter for `QColor.name()`. -/
structure QColor where
  r : Nat
  g : Nat
  b : Nat
  deriving DecidableEq, Repr

/-- One lowercase hex digit (`0`-`9`, `a`-`f`). -/
def hexChar (n : Nat) : Char :=
  if n < 10 then Char.ofNat (48 + n) else Char.ofNat (87 + n)

/-- Two lowercase hex digits of a byte. -/
def hex2 (n : Nat) : List Char := [hexChar (n / 16 % 16), hexChar (n % 16)]

/-- Qt `QColor.name()`: the string `#rrggbb` in lowercase hex. -/
def colorName (c : QColor) : List Char :=
  '#' :: (hex2 c.r ++ hex2 c.g ++ hex2 c.b)

def hexDigits : List Char := (List.range 16).map hexChar

theorem hexChar_mem_hexDigits (n : Nat) (h : n < 16) :
    hexChar n ∈ hexDigits :=
  List.mem_map.mpr ⟨n, List.mem_range.mpr h, rfl⟩

theorem mem_colorName {ch : Char} {c : QColor} (h : ch ∈ colorName c) :
    ch = '#' ∨ ch ∈ hexDigits := by
  have hx : ∀ m : Nat, hexChar (m % 16) ∈ hexDigits :=
    fun m => hexChar_mem_hexDigits _ (Nat.mod_lt _ (by omega))
  have hmem : ∀ m : Nat, ∀ x, x ∈ hex2 m → x ∈ hexDigits := by
    intro m x hxm
    simp only [hex2, List.mem_cons, List.not_mem_nil, or_false] at hxm
    rcases hxm with rfl | rfl
    · exact hx _
    · exact hx _
  rcases List.mem_cons.mp h with h1 | h1
  · exact Or.inl h1
  · right
    rcases List.mem_append.mp h1 with h2 | h2
    · rcases List.mem_append.mp h2 with h3 | h3
      · exact hmem _ _ h3
      · exact hmem _ _ h3
    · exact hmem _ _ h2

theorem colorName_ne_nil (c : QColor) : colorName c ≠ [] := by
  simp [colorName]

theorem colorName_headI (c : QColor) : (colorName c).headI = '#' := rfl

namespace SketchBookEngine

/-- Model of `SketchBookEngine._palette_brushes` (engine.py, `__init__`): the list of
QPalette brush names used for style sheets. -/
def paletteBrushes : List String :=
  ["dark", "base", "mid", "midlight", "light", "text", "alternateBase",
   "brightText", "button", "buttonText", "highlight", "link", "linkVisited",
   "shadow", "toolTipBase", "toolTipText", "window", "windowText"]

/-- The style-sheet token `"palette(%s)" % brush`. -/
def paletteToken (brush : String) : List Char :=
  ("palette(" ++ brush ++ ")").data

/-- Model of `SketchBookEngine._resolve_palette_stylesheet_tokens` (engine.py): walk
`_palette_brushes`; for each brush replace `palette(BRUSH)` by the palette
brush's colour name; a brush whose palette accessor raises `AttributeError`
(modelled by the palette map returning `none`) is logged as an error and
skipped, and the walk continues.  Returns the processed sheet together with
the log lines emitted. -/
def resolvePaletteStylesheetTokens (palette : String → Option QColor)
    (style_sheet : List Char) : List Char × List LogEvent :=
  paletteBrushes.foldl
    (fun acc brush =>
      match palette brush with
      | some c =>
          (replaceOne (paletteToken brush) (colorName c) acc.1, acc.2)
      | none =>
          (acc.1, acc.2 ++ [LogEvent.error ("Invalid palette brush " ++ brush)]))
    (style_sheet, [])

/-- The (token, colour-name) pairs of the brushes the palette actually
provides, in brush order. -/
def definedTokens (palette : String → Option QColor) :
    List (List Char × List Char) :=
  paletteBrushes.filterMap
    (fun b => (palette b).map (fun c => (paletteToken b, colorName c)))

end SketchBookEngine

open SketchBookEngine

theorem paletteToken_eq (b : String) :
    paletteToken b =
      'p' :: 'a' :: 'l' :: 'e' :: 't' :: 't' :: 'e' :: '(' ::
        (b.data ++ [')']) := by
  show (("palette(" ++ b) ++ ")").data = _
  rw [String.data_append, String.data_append]
  rw [show "palette(".data = ['p', 'a', 'l', 'e', 't', 't', 'e', '('] from rfl]
  rw [List.append_assoc]
  rfl

theorem paletteToken_ne_nil (b : String) : paletteToken b ≠ [] := by
  rw [paletteToken_eq]; simp

theorem paletteToken_headI (b : String) : (paletteToken b).headI = 'p' := by
  rw [paletteToken_eq]; rfl

theorem p_not_mem_colorName (c : QColor) : 'p' ∉ colorName c := by
  intro h
  rcases mem_colorName h with h1 | h1
  · exact absurd h1 (by decide)
  · exact absurd h1 (by decide)

/-- Distinct palette tokens never overlap in a string: no token matches
strictly inside another token's footprint (in either prefix direction). -/
def noOvB (b1 b2 : String) : Prop :=
  ∀ k < (paletteToken b2).length, 0 < k →
    isPre (paletteToken b1) ((paletteToken b2).drop k) = false ∧
    isPre ((paletteToken b2).drop k) (paletteToken b1) = false

instance (b1 b2 : String) : Decidable (noOvB b1 b2) := by
  unfold noOvB
  infer_instance

theorem brushes_noOv :
    ∀ b1 ∈ paletteBrushes, ∀ b2 ∈ paletteBrushes, noOvB b1 b2 := by decide

theorem hash_not_mem_paletteToken :
    ∀ b ∈ paletteBrushes, ('#' ∈ paletteToken b) = False := by decide

theorem safeToks_definedTokens (palette : String → Option QColor) :
    SafeToks (definedTokens palette) := by
  have hmem : ∀ t ∈ definedTokens palette,
      ∃ b ∈ paletteBrushes, ∃ c : QColor,
        t = (paletteToken b, colorName c) := by
    intro t ht
    obtain ⟨b, hb, hfb⟩ := List.mem_filterMap.mp ht
    cases hc : palette b with
    | none => rw [hc] at hfb; simp at hfb
    | some c =>
      rw [hc] at hfb
      have hfb2 : some (paletteToken b, colorName c) = some t := hfb
      exact ⟨b, hb, c, (Option.some_inj.mp hfb2).symm⟩
  constructor
  · intro t ht
    obtain ⟨b, _, c, rfl⟩ := hmem t ht
    exact paletteToken_ne_nil b
  · intro t ht
    obtain ⟨b, _, c, rfl⟩ := hmem t ht
    exact colorName_ne_nil c
  · intro t ht u hu _ k hk hklt
    obtain ⟨b1, hb1, c1, rfl⟩ := hmem t ht
    obtain ⟨b2, hb2, c2, rfl⟩ := hmem u hu
    exact brushes_noOv b1 hb1 b2 hb2 k hklt hk
  · intro t ht u hu
    obtain ⟨b1, hb1, c1, rfl⟩ := hmem t ht
    obtain ⟨b2, hb2, c2, rfl⟩ := hmem u hu
    rw [paletteToken_headI]
    exact p_not_mem_colorName c2
  · intro t ht u hu
    obtain ⟨b1, hb1, c1, rfl⟩ := hmem t ht
    obtain ⟨b2, hb2, c2, rfl⟩ := hmem u hu
    rw [colorName_headI]
    intro hx
    exact (hash_not_mem_paletteToken b2 hb2) ▸ hx

theorem resolvePalette_general (palette : String → Option QColor) :
    ∀ (bs : List String) (acc : List Char) (log : List LogEvent),
      bs.foldl
        (fun acc brush =>
          match palette brush with
          | some c =>
              (replaceOne (paletteToken brush) (colorName c) acc.1, acc.2)
          | none =>
              (acc.1,
                acc.2 ++ [LogEvent.error ("Invalid palette brush " ++ brush)]))
        (acc, log) =
      ((bs.filterMap (fun b => (palette b).map
          (fun c => (paletteToken b, colorName c)))).foldl
            (fun a t => replaceOne t.1 t.2 a) acc,
        log ++ (bs.filter (fun b => (palette b).isNone)).map
          (fun b => LogEvent.error ("Invalid palette brush " ++ b))) := by
  intro bs
  induction bs with
  | nil => intro acc log; simp
  | cons b bs ih =>
    intro acc log
    cases hc : palette b with
    | some c =>
      rw [List.foldl_cons]
      simp only [hc]
      rw [ih]
      simp [hc]
    | none =>
      rw [List.foldl_cons]
      simp only [hc]
      rw [ih]
      simp [hc]

theorem resolvePalette_eq (palette : String → Option QColor) (s : List Char) :
    resolvePaletteStylesheetTokens palette s =
      (simul (definedTokens palette) s,
       (paletteBrushes.filter (fun b => (palette b).isNone)).map
         (fun b => LogEvent.error ("Invalid palette brush " ++ b))) := by
  rw [resolvePaletteStylesheetTokens, resolvePalette_general]
  rw [show (paletteBrushes.filterMap (fun b => (palette b).map
      (fun c => (paletteToken b, colorName c)))) = definedTokens palette
    from rfl]
  rw [foldl_replaceOne_eq_simul (safeToks_definedTokens palette)]
  rw [List.nil_append]

theorem foldl_replaceOne_id {ts : List (List Char × List Char)}
    {s : List Char} (h : ∀ t ∈ ts, ¬ Occurs t.1 s) :
    ts.foldl (fun a t => replaceOne t.1 t.2 a) s = s := by
  induction ts with
  | nil => rfl
  | cons t ts ih =>
    rw [List.foldl_cons,
      replaceOne_of_not_occurs (h t (List.mem_cons_self _ _))]
    exact ih (fun u hu => h u (List.mem_cons_of_mem _ hu))

theorem simul_id_of_not_occurs {ts : List (List Char × List Char)} :
    ∀ s, (∀ t ∈ ts, ¬ Occurs t.1 s) → simul ts s = s := by
  intro s
  induction s with
  | nil => intro _; exact simul_nil
  | cons c cs ih =>
    intro h
    have hnone : findTok ts (c :: cs) = none := by
      apply List.find?_eq_none.mpr
      intro t ht hcon
      rw [Bool.and_eq_true] at hcon
      exact h t ht (occurs_cons_iff.mpr (Or.inl hcon.2))
    rw [simul_cons_none hnone]
    rw [ih (fun t ht ho => h t ht (occurs_cons_iff.mpr (Or.inr ho)))]

theorem definedTokens_total (palette : String → QColor) :
    definedTokens (fun b => some (palette b)) =
      paletteBrushes.map
        (fun b => (paletteToken b, colorName (palette b))) := by
  rw [definedTokens]
  induction paletteBrushes with
  | nil => rfl
  | cons b bs ih =>
    rw [List.map_cons,
      @List.filterMap_cons_some String (List Char × List Char)
        (fun b => Option.map (fun c => (paletteToken b, colorName c))
          (some (palette b)))
        b bs (paletteToken b, colorName (palette b)) rfl,
      ih]

/-- C6: for every palette and input, `_resolve_palette_stylesheet_tokens`
replaces every occurrence of the token `palette(BRUSH)` for each of the 18
brush names in `_palette_brushes` with the corresponding palette brush's
colour name and leaves all other text unchanged (the function equals the
simultaneous one-pass replacement `simul` of all 18 token/colour pairs);
in particular, on an input containing no such token it is the identity. -/
theorem C6_palette_token_resolution (palette : String → QColor)
    (s : List Char) :
    paletteBrushes.length = 18 ∧
    (resolvePaletteStylesheetTokens (fun b => some (palette b)) s).1 =
      simul (paletteBrushes.map
        (fun b => (paletteToken b, colorName (palette b)))) s ∧
    ((∀ b ∈ paletteBrushes, occursB (paletteToken b) s = false) →
      (resolvePaletteStylesheetTokens (fun b => some (palette b)) s).1 = s) := by
  have hfst : (resolvePaletteStylesheetTokens (fun b => some (palette b)) s).1 =
      simul (paletteBrushes.map
        (fun b => (paletteToken b, colorName (palette b)))) s := by
    rw [resolvePalette_eq, definedTokens_total]
  refine ⟨rfl, hfst, ?_⟩
  intro hno
  rw [hfst]
  apply simul_id_of_not_occurs
  intro t ht
  obtain ⟨b, hb, rfl⟩ := List.mem_map.mp ht
  intro ho
  have := (occursB_iff_occurs (paletteToken_ne_nil b)).mpr ho
  rw [hno b hb] at this
  exact Bool.false_ne_true this

/-- Witness for C6 at a concrete palette and a token-free style sheet. -/
theorem C6_palette_token_resolution_witness :
    (resolvePaletteStylesheetTokens (fun _ => some ⟨16, 32, 48⟩)
      "QWidget".data).1 = "QWidget".data :=
  (C6_palette_token_resolution (fun _ => ⟨16, 32, 48⟩) "QWidget".data).2.2
    (by decide)

/-! ## The operations facade (`python/tk_sketchbook/operations.py`) -/

/-- The closed native API module: one field per call the operations facade
makes on it.  Calls that follow the `(success, message)` convention return
`Bool × String`. -/
structure NativeApi where
  get_current_path : String
  open_file_as_new_stage : String → Bool × String
  open_file_as_new_scene : String → Bool × String
  save_file : Bool × String
  save_file_as : String → Bool × String
  reset_scene : Bool × String
  create_reference : String → Bool × String
  import_file : String → Bool × String
  create_texture_node : String → Bool × String
  update_scene : List String → Bool × String
  get_references : String
  get_info : String
  get_annotations : String
  get_variants : String → String → Bool × String
  get_stages_number : Nat
  create_new_stage : String → Bool × String

/-- Record of one call made on the native API module. -/
inductive ApiCall where
  | get_current_path
  | open_file_as_new_stage (path : String)
  | open_file_as_new_scene (path : String)
  | save_file
  | save_file_as (path : String)
  | reset_scene
  | create_reference (path : String)
  | import_file (path : String)
  | create_texture_node (path : String)
  | update_scene (items : List String)
  | get_references
  | get_info
  | get_annotations
  | get_variants
  | get_stages_number
  | create_new_stage (stage : String)
  deriving DecidableEq, Repr

/-- The ambient state a `SketchBookOperations` method runs in: the module's
global namespace (mapping a global name to the native API module it is
bound to, if any), plus the oracles for `os.path.exists`,
`tempfile.gettempdir()`, `uuid.uuid4().hex`, `os.path.sep` and the
engine's file-usage hook. -/
structure Env where
  globals : String → Option NativeApi
  fileExists : String → Bool
  tempdir : String
  uuidHex : String
  pathSep : Char
  fileClosedHook : String → Unit
  fileAttemptOpenHook : String → Bool

/-- CPython global-name lookup: an unbound name raises `NameError`. -/
def resolveName (g : String → Option NativeApi) (n : String) :
    Except PyErr NativeApi :=
  match g n with
  | some api => Except.ok api
  | none => Except.error (PyErr.nameError n)

/-- The global namespace `operations.py` actually has: line 9 of the module
is `import sketchbook_api`, and no statement ever binds `alias_api`. -/
def operationsGlobals (api : NativeApi) : String → Option NativeApi :=
  fun n => if n = "sketchbook_api" then some api else none

/-- The namespace the module was evidently written against, with the native
module also bound to `alias_api`; used for the claims about the
`(success, message)` conversion convention, which describe the dataflow of
the method bodies after the name lookup. -/
def boundGlobals (api : NativeApi) : String → Option NativeApi :=
  fun n => if n = "sketchbook_api" ∨ n = "alias_api" then some api else none

namespace SketchBookOperations

/-- Model of `SketchBookOperations.get_current_path`:
`current_path = alias_api.get_current_path(); return current_path`. -/
def get_current_path (env : Env) : Except PyErr String × List ApiCall :=
  match resolveName env.globals "alias_api" with
  | .error e => (.error e, [])
  | .ok api => (.ok api.get_current_path, [ApiCall.get_current_path])

/-- Model of `SketchBookOperations.current_file_closed`: fetch the current path; an
empty (falsy) path returns immediately, otherwise the file-usage hook's
`file_closed` is notified. -/
def current_file_closed (env : Env) : Except PyErr Unit × List ApiCall :=
  match get_current_path env with
  | (.error e, t) => (.error e, t)
  | (.ok path, t) =>
      if path = "" then (.ok (), t)
      else
        let _ := env.fileClosedHook path
        (.ok (), t)

/-- Model of `SketchBookOperations.open_file_as_new_stage`: notify
`current_file_closed`, call `alias_api.open_file_as_new_stage(path)`, raise
on failure. -/
def open_file_as_new_stage (env : Env) (path : String) :
    Except PyErr Unit × List ApiCall :=
  match current_file_closed env with
  | (.error e, t) => (.error e, t)
  | (.ok _, t) =>
      match resolveName env.globals "alias_api" with
      | .error e => (.error e, t)
      | .ok api =>
          let r := api.open_file_as_new_stage path
          let t2 := t ++ [ApiCall.open_file_as_new_stage path]
          if r.1 then (.ok (), t2)
          else
            (.error (PyErr.exception
              ("Error opening as new stage the file " ++ path)), t2)

/-- Model of `SketchBookOperations.open_file_as_new_scene`: call
`alias_api.open_file_as_new_scene(path)`, raise on failure. -/
def open_file_as_new_scene (env : Env) (path : String) :
    Except PyErr Unit × List ApiCall :=
  match resolveName env.globals "alias_api" with
  | .error e => (.error e, [])
  | .ok api =>
      let r := api.open_file_as_new_scene path
      let t2 := [ApiCall.open_file_as_new_scene path]
      if r.1 then (.ok (), t2)
      else (.error (PyErr.exception ("Error opening the file " ++ path)), t2)

/-- Model of `SketchBookOperations.save_file`: call `alias_api.save_file()`, raise
on failure. -/
def save_file (env : Env) : Except PyErr Unit × List ApiCall :=
  match resolveName env.globals "alias_api" with
  | .error e => (.error e, [])
  | .ok api =>
      let r := api.save_file
      let t2 := [ApiCall.save_file]
      if r.1 then (.ok (), t2)
      else (.error (PyErr.exception "Error saving the current file"), t2)

/-- Model of `SketchBookOperations.save_file_as`: notify `current_file_closed`, call
`alias_api.save_file_as(path)`, raise on failure, then notify the
file-usage hook's `file_attempt_open`. -/
def save_file_as (env : Env) (path : String) :
    Except PyErr Unit × List ApiCall :=
  match current_file_closed env with
  | (.error e, t) => (.error e, t)
  | (.ok _, t) =>
      match resolveName env.globals "alias_api" with
      | .error e => (.error e, t)
      | .ok api =>
          let r := api.save_file_as path
          let t2 := t ++ [ApiCall.save_file_as path]
          if r.1 then
            let _ := env.fileAttemptOpenHook path
            (.ok (), t2)
          else
            (.error (PyErr.exception ("Error saving the file " ++ path)), t2)

/-- Model of `SketchBookOperations.reset_scene`: notify `current_file_closed`, call
`alias_api.reset_scene()`, raise on failure. -/
def reset_scene (env : Env) : Except PyErr Unit × List ApiCall :=
  match current_file_closed env with
  | (.error e, t) => (.error e, t)
  | (.ok _, t) =>
      match resolveName env.globals "alias_api" with
      | .error e => (.error e, t)
      | .ok api =>
          let r := api.reset_scene
          let t2 := t ++ [ApiCall.reset_scene]
          if r.1 then (.ok (), t2)
          else (.error (PyErr.exception "Error resetting the scene"), t2)

/-- The dict the reference/import/texture wrappers return when called with
`standalone=False`. -/
structure OpResult where
  message_type : String
  message_code : String
  publish_path : String
  is_error : Bool
  deriving DecidableEq, Repr

/-- Model of `SketchBookOperations.create_reference`: check the file exists, call
`alias_api.create_reference(path)`; non-standalone callers get a result
dict; standalone failure raises, standalone success shows a message box
and returns None. -/
def create_reference (env : Env) (path : String) (standalone : Bool := true) :
    Except PyErr (Option OpResult) × List ApiCall :=
  if env.fileExists path = false then
    (.error (PyErr.exception ("File not found on disk - '" ++ path ++ "'")),
      [])
  else
    match resolveName env.globals "alias_api" with
    | .error e => (.error e, [])
    | .ok api =>
        let r := api.create_reference path
        let t2 := [ApiCall.create_reference path]
        if standalone = false then
          (.ok (some
            { message_type := if r.1 then "information" else "warning",
              message_code := r.2, publish_path := path,
              is_error := if r.1 then false else true }), t2)
        else if r.1 = false then
          (.error (PyErr.exception "Error creating the reference"), t2)
        else (.ok none, t2)

/-- Model of `SketchBookOperations.import_file`: check the file exists, call
`alias_api.open_file_as_new_stage(path)` when `create_stage` else
`alias_api.import_file(path)`; non-standalone callers get a result dict;
standalone failure raises. -/
def import_file (env : Env) (path : String) (create_stage : Bool := false)
    (standalone : Bool := true) :
    Except PyErr (Option OpResult) × List ApiCall :=
  if env.fileExists path = false then
    (.error (PyErr.exception ("File not found on disk - '" ++ path ++ "'")),
      [])
  else
    match resolveName env.globals "alias_api" with
    | .error e => (.error e, [])
    | .ok api =>
        let r := if create_stage then api.open_file_as_new_stage path
                 else api.import_file path
        let t2 := if create_stage then [ApiCall.open_file_as_new_stage path]
                  else [ApiCall.import_file path]
        if standalone = false then
          (.ok (some
            { message_type := if r.1 then "information" else "warning",
              message_code := r.2, publish_path := path,
              is_error := if r.1 then false else true }), t2)
        else if r.1 = false then
          (.error (PyErr.exception "Error import the file"), t2)
        else (.ok none, t2)

/-- Model of `SketchBookOperations.create_texture_node`: check the file exists, call
`alias_api.create_texture_node(path)`; non-standalone callers get a result
dict; standalone failure raises. -/
def create_texture_node (env : Env) (path : String)
    (standalone : Bool := true) :
    Except PyErr (Option OpResult) × List ApiCall :=
  if env.fileExists path = false then
    (.error (PyErr.exception ("File not found on disk - '" ++ path ++ "'")),
      [])
  else
    match resolveName env.globals "alias_api" with
    | .error e => (.error e, [])
    | .ok api =>
        let r := api.create_texture_node path
        let t2 := [ApiCall.create_texture_node path]
        if standalone = false then
          (.ok (some
            { message_type := if r.1 then "information" else "warning",
              message_code := r.2, publish_path := path,
              is_error := if r.1 then false else true }), t2)
        else if r.1 = false then
          (.error (PyErr.exception "Error creating a texture node"), t2)
        else (.ok none, t2)

/-- The fixed message `update_scene` raises on failure. -/
def updateSceneErrorMsg : String :=
  "One or more selected items cannot be updated.\nIf there is another " ++
  "version of this file referenced, please check the Alias Reference " ++
  "Manager and remove its reference to enable the update."

/-- Model of `SketchBookOperations.update_scene`: an empty (falsy) item list returns
immediately; otherwise call `alias_api.update_scene(items)` and raise a
fixed message on failure. -/
def update_scene (env : Env) (items : List String) :
    Except PyErr Unit × List ApiCall :=
  if items = [] then (.ok (), [])
  else
    match resolveName env.globals "alias_api" with
    | .error e => (.error e, [])
    | .ok api =>
        let r := api.update_scene items
        let t2 := [ApiCall.update_scene items]
        if r.1 then (.ok (), t2)
        else (.error (PyErr.exception updateSceneErrorMsg), t2)

/-- The string `"COLSEP"`, the column separator of the references string. -/
def colSeparator : List Char := "COLSEP".data

/-- The string `"ROWSEP"`, the row separator of the references string. -/
def rowSeparator : List Char := "ROWSEP".data

/-- One parsed reference row. -/
structure RefEntry where
  node : List Char
  type : List Char
  path : List Char
  deriving DecidableEq, Repr

/-- The row loop of `SketchBookOperations.get_references`: skip empty rows
and rows without `COLSEP`; unpack `row.split("COLSEP")` into
`(name, path)`, which raises `ValueError` when the split does not have
exactly two parts; `/` in the path is replaced by `os.path.sep`. -/
def parseRows (sep : Char) : List (List Char) → Except PyErr (List RefEntry)
  | [] => Except.ok []
  | row :: rows =>
      if row = [] ∨ occursB colSeparator row = false then
        parseRows sep rows
      else
        match splitOnSub colSeparator row with
        | [n, p] =>
            match parseRows sep rows with
            | .error e => .error e
            | .ok rest =>
                .ok ({ node := n, type := "reference".data,
                       path := replaceOne ['/'] [sep] p } :: rest)
        | _ => .error PyErr.valueError

/-- Model of `SketchBookOperations.get_references`: split the native references
string on `ROWSEP` and parse each row. -/
def get_references (env : Env) :
    Except PyErr (List RefEntry) × List ApiCall :=
  match resolveName env.globals "alias_api" with
  | .error e => (.error e, [])
  | .ok api =>
      (parseRows env.pathSep
        (splitOnSub rowSeparator api.get_references.data),
       [ApiCall.get_references])

/-- Model of `SketchBookOperations.get_info`: return `alias_api.get_info()`. -/
def get_info (env : Env) : Except PyErr String × List ApiCall :=
  match resolveName env.globals "alias_api" with
  | .error e => (.error e, [])
  | .ok api => (.ok api.get_info, [ApiCall.get_info])

/-- Model of `SketchBookOperations.get_annotations`: return
`alias_api.get_annotations()`. -/
def get_annotations (env : Env) : Except PyErr String × List ApiCall :=
  match resolveName env.globals "alias_api" with
  | .error e => (.error e, [])
  | .ok api => (.ok api.get_annotations, [ApiCall.get_annotations])

/-- Model of `SketchBookOperations.get_variants`: call
`alias_api.get_variants(tempfile.gettempdir(), uuid.uuid4().hex)` and
return the second component. -/
def get_variants (env : Env) : Except PyErr String × List ApiCall :=
  match resolveName env.globals "alias_api" with
  | .error e => (.error e, [])
  | .ok api =>
      let r := api.get_variants env.tempdir env.uuidHex
      (.ok r.2, [ApiCall.get_variants])

/-- Model of `SketchBookOperations.get_stages_number`: return
`alias_api.get_stages_number()`. -/
def get_stages_number (env : Env) : Except PyErr Nat × List ApiCall :=
  match resolveName env.globals "alias_api" with
  | .error e => (.error e, [])
  | .ok api => (.ok api.get_stages_number, [ApiCall.get_stages_number])

/-- Answers of `QtGui.QMessageBox.question`. -/
inductive MsgAnswer where
  | yes
  | no
  | cancel
  deriving DecidableEq, Repr

/-- Model of `SketchBookOperations.create_new_file`: ask the user; Cancel aborts,
No creates a new stage via `alias_api.create_new_stage(uuid.uuid4().hex)`,
Yes resets the scene. -/
def create_new_file (env : Env) (answer : MsgAnswer) :
    Except PyErr Unit × List ApiCall :=
  match answer with
  | .cancel => (.ok (), [])
  | .no =>
      match resolveName env.globals "alias_api" with
      | .error e => (.error e, [])
      | .ok api =>
          let _ := api.create_new_stage env.uuidHex
          (.ok (), [ApiCall.create_new_stage env.uuidHex])
  | .yes => reset_scene env

end SketchBookOperations

/-! ## `hooks/tk-multi-workfiles2/basic/scene_operation.py` -/

/-- The names `scene_operation.py` binds at module level (its imports and
the definitions in the file); `get_current_path` is not among them. -/
def sceneOperationBoundNames : List String :=
  ["sketchbook_api", "sgtk", "QtGui", "HookClass", "SceneOperation"]

/-- Model of `SceneOperation.execute`: the `current_path` branch is
`return sketchbook_api(get_current_path)`; evaluating the argument looks
up the bare name `get_current_path`, which the module never binds, so
CPython raises `NameError` before any call happens (were the name bound,
calling the module object `sketchbook_api` would raise `TypeError`).  All
other operation branches are `pass`, so the method returns None. -/
def sceneOperationExecute (operation : String) :
    Except PyErr (Option String) :=
  if operation = "current_path" then
    if "get_current_path" ∈ sceneOperationBoundNames then
      Except.error (PyErr.typeError "module object is not callable")
    else
      Except.error (PyErr.nameError "get_current_path")
  else
    Except.ok none

/-! ## Concrete sample data for the closed witnesses -/

/-- A concrete native API whose `(success, message)` calls all fail with
distinctive native messages. -/
def sampleApi : NativeApi where
  get_current_path := "/projects/a.skb"
  open_file_as_new_stage := fun _ => (false, "native stage failure")
  open_file_as_new_scene := fun _ => (false, "native scene failure")
  save_file := (false, "native save failure")
  save_file_as := fun _ => (false, "native save-as failure")
  reset_scene := (false, "native reset failure")
  create_reference := fun _ => (false, "native reference failure")
  import_file := fun _ => (false, "native import failure")
  create_texture_node := fun _ => (false, "native texture failure")
  update_scene := fun _ => (false, "native update failure")
  get_references := "nodeACOLSEP/a/b.pngROWSEP"
  get_info := "info"
  get_annotations := "annotations"
  get_variants := fun _ _ => (true, "variants")
  get_stages_number := 2
  create_new_stage := fun _ => (true, "")

/-- The environment with the module's actual namespace (no `alias_api`). -/
def unboundEnv : Env where
  globals := operationsGlobals sampleApi
  fileExists := fun _ => true
  tempdir := "/tmp"
  uuidHex := "aabbcc"
  pathSep := '/'
  fileClosedHook := fun _ => ()
  fileAttemptOpenHook := fun _ => true

/-- The environment with the intended namespace (`alias_api` bound). -/
def boundEnv : Env where
  globals := boundGlobals sampleApi
  fileExists := fun _ => true
  tempdir := "/tmp"
  uuidHex := "aabbcc"
  pathSep := '/'
  fileClosedHook := fun _ => ()
  fileAttemptOpenHook := fun _ => true

/-- C3: with the global namespace `operations.py` actually has (line 9
binds `sketchbook_api`; nothing ever binds `alias_api`), every
`SketchBookOperations` method that reaches a native call through the name
`alias_api` raises `NameError` for `alias_api` unconditionally once the
call site is reached — none of them can return a value or raise its
documented operation-specific error. -/
theorem C3_alias_api_name_error (api : NativeApi) (env : Env)
    (hg : env.globals = operationsGlobals api)
    (path : String) (hpath : env.fileExists path = true)
    (items : List String) (hitems : items ≠ []) :
    (SketchBookOperations.get_current_path env).1 =
      .error (.nameError "alias_api") ∧
    (SketchBookOperations.open_file_as_new_stage env path).1 =
      .error (.nameError "alias_api") ∧
    (SketchBookOperations.open_file_as_new_scene env path).1 =
      .error (.nameError "alias_api") ∧
    (SketchBookOperations.save_file env).1 =
      .error (.nameError "alias_api") ∧
    (SketchBookOperations.save_file_as env path).1 =
      .error (.nameError "alias_api") ∧
    (SketchBookOperations.reset_scene env).1 =
      .error (.nameError "alias_api") ∧
    (SketchBookOperations.create_reference env path true).1 =
      .error (.nameError "alias_api") ∧
    (SketchBookOperations.import_file env path false true).1 =
      .error (.nameError "alias_api") ∧
    (SketchBookOperations.create_texture_node env path true).1 =
      .error (.nameError "alias_api") ∧
    (SketchBookOperations.get_references env).1 =
      .error (.nameError "alias_api") ∧
    (SketchBookOperations.update_scene env items).1 =
      .error (.nameError "alias_api") ∧
    (SketchBookOperations.get_info env).1 =
      .error (.nameError "alias_api") ∧
    (SketchBookOperations.get_annotations env).1 =
      .error (.nameError "alias_api") ∧
    (SketchBookOperations.get_variants env).1 =
      .error (.nameError "alias_api") ∧
    (SketchBookOperations.get_stages_number env).1 =
      .error (.nameError "alias_api") ∧
    (SketchBookOperations.create_new_file env
        SketchBookOperations.MsgAnswer.no).1 =
      .error (.nameError "alias_api") := by
  have hres : resolveName env.globals "alias_api" =
      .error (.nameError "alias_api") := by
    rw [hg]
    rfl
  refine ⟨?_, ?_, ?_, ?_, ?_, ?_, ?_, ?_, ?_, ?_, ?_, ?_, ?_, ?_, ?_, ?_⟩ <;>
    simp [SketchBookOperations.get_current_path,
      SketchBookOperations.current_file_closed,
      SketchBookOperations.open_file_as_new_stage,
      SketchBookOperations.open_file_as_new_scene,
      SketchBookOperations.save_file, SketchBookOperations.save_file_as,
      SketchBookOperations.reset_scene,
      SketchBookOperations.create_reference,
      SketchBookOperations.import_file,
      SketchBookOperations.create_texture_node,
      SketchBookOperations.update_scene,
      SketchBookOperations.get_references, SketchBookOperations.get_info,
      SketchBookOperations.get_annotations,
      SketchBookOperations.get_variants,
      SketchBookOperations.get_stages_number,
      SketchBookOperations.create_new_file, hres, hpath, hitems]

/-- Witness for C3 at the concrete sample environment. -/
theorem C3_alias_api_name_error_witness :
    (SketchBookOperations.save_file unboundEnv).1 =
      .error (.nameError "alias_api") ∧
    (SketchBookOperations.get_current_path unboundEnv).1 =
      .error (.nameError "alias_api") := by
  have h := C3_alias_api_name_error sampleApi unboundEnv rfl "/f.skb" rfl
    ["item"] (by decide)
  exact ⟨h.2.2.2.1, h.1⟩

/-- C2 (code bug): instead of returning the bare value of the native
`get_current_path` call, both call sites raise `NameError`: the facade
method reads the unbound global `alias_api` (the module imports
`sketchbook_api` instead), and the workfiles `current_path` scene
operation evaluates the unbound bare name `get_current_path` in
`sketchbook_api(get_current_path)`. -/
theorem C2_current_path_name_error :
    (SketchBookOperations.get_current_path unboundEnv).1 =
      .error (.nameError "alias_api") ∧
    sceneOperationExecute "current_path" =
      .error (.nameError "get_current_path") := by
  exact ⟨rfl, rfl⟩

/-- C1 counterexample: with the native save call reporting
`(False, "native save failure")`, `save_file` raises the fixed text
`"Error saving the current file"`, not the message returned by the native
API. -/
theorem C1_counterexample_fixed_message :
    (SketchBookOperations.save_file boundEnv).1 =
      .error (.exception "Error saving the current file") ∧
    (PyErr.exception "Error saving the current file" ≠
      PyErr.exception "native save failure") := by
  exact ⟨rfl, by decide⟩

/-- C1 (amended): with `alias_api` bound to the native module, whenever a
native call returns a `(success, message)` pair with `success` false, the
file-operation wrapper raises an `Exception` whose text is a fixed
wrapper-specific message (with the path interpolated for the open and
save-as wrappers) — the native `message` is only logged, never used as the
error text. -/
theorem C1_amended_failure_messages (api : NativeApi) (env : Env)
    (hg : env.globals = boundGlobals api) (path : String)
    (hpath : env.fileExists path = true) (items : List String)
    (hitems : items ≠ []) (create_stage : Bool) :
    ((api.open_file_as_new_stage path).1 = false →
      (SketchBookOperations.open_file_as_new_stage env path).1 =
        .error (.exception ("Error opening as new stage the file " ++ path))) ∧
    ((api.open_file_as_new_scene path).1 = false →
      (SketchBookOperations.open_file_as_new_scene env path).1 =
        .error (.exception ("Error opening the file " ++ path))) ∧
    (api.save_file.1 = false →
      (SketchBookOperations.save_file env).1 =
        .error (.exception "Error saving the current file")) ∧
    ((api.save_file_as path).1 = false →
      (SketchBookOperations.save_file_as env path).1 =
        .error (.exception ("Error saving the file " ++ path))) ∧
    (api.reset_scene.1 = false →
      (SketchBookOperations.reset_scene env).1 =
        .error (.exception "Error resetting the scene")) ∧
    ((api.create_reference path).1 = false →
      (SketchBookOperations.create_reference env path true).1 =
        .error (.exception "Error creating the reference")) ∧
    ((if create_stage then api.open_file_as_new_stage path
        else api.import_file path).1 = false →
      (SketchBookOperations.import_file env path create_stage true).1 =
        .error (.exception "Error import the file")) ∧
    ((api.create_texture_node path).1 = false →
      (SketchBookOperations.create_texture_node env path true).1 =
        .error (.exception "Error creating a texture node")) ∧
    ((api.update_scene items).1 = false →
      (SketchBookOperations.update_scene env items).1 =
        .error (.exception SketchBookOperations.updateSceneErrorMsg)) := by
  have hres : resolveName env.globals "alias_api" = .ok api := by
    rw [hg]
    rfl
  refine ⟨?_, ?_, ?_, ?_, ?_, ?_, ?_, ?_, ?_⟩ <;> intro hfail <;>
    simp [SketchBookOperations.get_current_path,
      SketchBookOperations.current_file_closed,
      SketchBookOperations.open_file_as_new_stage,
      SketchBookOperations.open_file_as_new_scene,
      SketchBookOperations.save_file, SketchBookOperations.save_file_as,
      SketchBookOperations.reset_scene,
      SketchBookOperations.create_reference,
      SketchBookOperations.import_file,
      SketchBookOperations.create_texture_node,
      SketchBookOperations.update_scene, hres, hpath, hitems, hfail]

/-- Witness for C1's amended statement at the concrete failing API. -/
theorem C1_amended_failure_messages_witness :
    (SketchBookOperations.save_file boundEnv).1 =
      .error (.exception "Error saving the current file") ∧
    (SketchBookOperations.open_file_as_new_scene boundEnv "/f.skb").1 =
      .error (.exception ("Error opening the file " ++ "/f.skb")) := by
  have h := C1_amended_failure_messages sampleApi boundEnv rfl "/f.skb" rfl
    ["item"] (by decide) false
  exact ⟨h.2.2.1 rfl, h.2.1 rfl⟩

/-! ## `hooks/tk-multi-shotgunpanel/basic/scene_actions.py` -/

namespace SketchBookActions

/-- One action dict handed to `execute_multiple_actions` (keys `name`,
`sg_data`, `params`). -/
structure ActionItem where
  name : String
  sg_data : String
  params : String
  deriving DecidableEq, Repr

/-- Model of `SketchBookActions.execute_multiple_actions`: dispatch each action
dict to `execute_action(name, params, sg_data)` in order; an exception
raised by one action propagates out of the loop, so the remaining actions
are not dispatched.  Besides the result, the embedding records which
actions were dispatched. -/
def execute_multiple_actions
    (execute_action : String → String → String → Except PyErr Unit) :
    List ActionItem → Except PyErr Unit × List ActionItem
  | [] => (.ok (), [])
  | a :: rest =>
      match execute_action a.name a.params a.sg_data with
      | .error e => (.error e, [a])
      | .ok _ =>
          let r := execute_multiple_actions execute_action rest
          (r.1, a :: r.2)

theorem execute_multiple_actions_all_ok
    {execute_action : String → String → String → Except PyErr Unit} :
    ∀ {acts : List ActionItem},
      (∀ b ∈ acts, execute_action b.name b.params b.sg_data = .ok ()) →
      execute_multiple_actions execute_action acts = (.ok (), acts) := by
  intro acts
  induction acts with
  | nil => intro _; rfl
  | cons a rest ih =>
    intro h
    rw [execute_multiple_actions, h a (List.mem_cons_self _ _),
      ih (fun b hb => h b (List.mem_cons_of_mem _ hb))]

theorem execute_multiple_actions_stops
    {execute_action : String → String → String → Except PyErr Unit} :
    ∀ {pre : List ActionItem} {a : ActionItem} {post : List ActionItem}
      {e : PyErr},
      (∀ b ∈ pre, execute_action b.name b.params b.sg_data = .ok ()) →
      execute_action a.name a.params a.sg_data = .error e →
      execute_multiple_actions execute_action (pre ++ a :: post) =
        (.error e, pre ++ [a]) := by
  intro pre
  induction pre with
  | nil =>
    intro a post e _ ha
    rw [List.nil_append, execute_multiple_actions, ha]
    rfl
  | cons b pre ih =>
    intro a post e hpre ha
    rw [List.cons_append, execute_multiple_actions,
      hpre b (List.mem_cons_self _ _),
      ih (fun x hx => hpre x (List.mem_cons_of_mem _ hx)) ha]
    rfl

end SketchBookActions

section WrapperTraces

variable {env : Env} {api : NativeApi}

theorem current_file_closed_bound
    (hres : resolveName env.globals "alias_api" = .ok api) :
    SketchBookOperations.current_file_closed env =
      (.ok (), [ApiCall.get_current_path]) := by
  simp only [SketchBookOperations.current_file_closed,
    SketchBookOperations.get_current_path, hres]
  split <;> rfl

theorem open_file_as_new_stage_trace
    (hres : resolveName env.globals "alias_api" = .ok api) (path : String) :
    (SketchBookOperations.open_file_as_new_stage env path).2 =
      [ApiCall.get_current_path, ApiCall.open_file_as_new_stage path] := by
  simp only [SketchBookOperations.open_file_as_new_stage,
    current_file_closed_bound hres, hres]
  split <;> rfl

theorem open_file_as_new_scene_trace
    (hres : resolveName env.globals "alias_api" = .ok api) (path : String) :
    (SketchBookOperations.open_file_as_new_scene env path).2 =
      [ApiCall.open_file_as_new_scene path] := by
  simp only [SketchBookOperations.open_file_as_new_scene, hres]
  split <;> rfl

theorem save_file_trace
    (hres : resolveName env.globals "alias_api" = .ok api) :
    (SketchBookOperations.save_file env).2 = [ApiCall.save_file] := by
  simp only [SketchBookOperations.save_file, hres]
  split <;> rfl

theorem save_file_as_trace
    (hres : resolveName env.globals "alias_api" = .ok api) (path : String) :
    (SketchBookOperations.save_file_as env path).2 =
      [ApiCall.get_current_path, ApiCall.save_file_as path] := by
  simp only [SketchBookOperations.save_file_as,
    current_file_closed_bound hres, hres]
  split <;> rfl

theorem reset_scene_trace
    (hres : resolveName env.globals "alias_api" = .ok api) :
    (SketchBookOperations.reset_scene env).2 =
      [ApiCall.get_current_path, ApiCall.reset_scene] := by
  simp only [SketchBookOperations.reset_scene,
    current_file_closed_bound hres, hres]
  split <;> rfl

theorem create_reference_trace
    (hres : resolveName env.globals "alias_api" = .ok api)
    {path : String} (hpath : env.fileExists path = true)
    (standalone : Bool) :
    (SketchBookOperations.create_reference env path standalone).2 =
      [ApiCall.create_reference path] := by
  simp only [SketchBookOperations.create_reference, hres]
  rw [if_neg (by simp [hpath])]
  split <;> first | rfl | (split <;> rfl)

theorem import_file_trace
    (hres : resolveName env.globals "alias_api" = .ok api)
    {path : String} (hpath : env.fileExists path = true)
    (standalone : Bool) :
    (SketchBookOperations.import_file env path false standalone).2 =
      [ApiCall.import_file path] := by
  simp only [SketchBookOperations.import_file, hres]
  rw [if_neg (by simp [hpath])]
  simp only [Bool.false_eq_true, if_false]
  split <;> first | rfl | (split <;> rfl)

theorem create_texture_node_trace
    (hres : resolveName env.globals "alias_api" = .ok api)
    {path : String} (hpath : env.fileExists path = true)
    (standalone : Bool) :
    (SketchBookOperations.create_texture_node env path standalone).2 =
      [ApiCall.create_texture_node path] := by
  simp only [SketchBookOperations.create_texture_node, hres]
  rw [if_neg (by simp [hpath])]
  split <;> first | rfl | (split <;> rfl)

theorem update_scene_trace
    (hres : resolveName env.globals "alias_api" = .ok api)
    {items : List String} (hitems : items ≠ []) :
    (SketchBookOperations.update_scene env items).2 =
      [ApiCall.update_scene items] := by
  simp only [SketchBookOperations.update_scene, hres]
  rw [if_neg hitems]
  split <;> rfl

end WrapperTraces

theorem not_occurs_of_occursB_false {p s : List Char} (hp : p ≠ [])
    (h : occursB p s = false) : ¬ Occurs p s := by
  intro ho
  rw [(occursB_iff_occurs hp).mpr ho] at h
  exact Bool.true_eq_false ▸ h

theorem colSeparator_border_free :
    ∀ k < SketchBookOperations.colSeparator.length, 0 < k →
      isPre (SketchBookOperations.colSeparator.drop k)
        SketchBookOperations.colSeparator = false := by decide

/-- C9: the references parsing.  `get_references` splits the native string
on `ROWSEP` and parses the rows; an empty row or a row without `COLSEP` is
skipped; a row containing `COLSEP` exactly once (`n ++ COLSEP ++ p`)
produces the dict with `node` bound to the text before the separator,
`type` bound to `"reference"`, and `path` bound to the text after the
separator with every `/` replaced by the OS path separator; and a row
containing the separator two or more times makes the call raise
`ValueError` instead of returning. -/
theorem C9_get_references_parsing (api : NativeApi) (env : Env)
    (hg : env.globals = boundGlobals api) (sep : Char)
    (rows : List (List Char)) (row n p2 : List Char)
    (rest : List SketchBookOperations.RefEntry) :
    (SketchBookOperations.get_references env =
      (SketchBookOperations.parseRows env.pathSep
        (splitOnSub SketchBookOperations.rowSeparator
          api.get_references.data),
       [ApiCall.get_references])) ∧
    (SketchBookOperations.parseRows sep ([] :: rows) =
      SketchBookOperations.parseRows sep rows) ∧
    (occursB SketchBookOperations.colSeparator row = false →
      SketchBookOperations.parseRows sep (row :: rows) =
        SketchBookOperations.parseRows sep rows) ∧
    (occursB SketchBookOperations.colSeparator n = false →
      occursB SketchBookOperations.colSeparator p2 = false →
      SketchBookOperations.parseRows sep rows = .ok rest →
      SketchBookOperations.parseRows sep
        ((n ++ SketchBookOperations.colSeparator ++ p2) :: rows) =
        .ok ({ node := n, type := "reference".data,
               path := p2.map (fun c => if c = '/' then sep else c) }
             :: rest)) ∧
    (2 ≤ occCount SketchBookOperations.colSeparator row →
      SketchBookOperations.parseRows sep (row :: rows) =
        .error PyErr.valueError) := by
  have hres : resolveName env.globals "alias_api" = .ok api := by
    rw [hg]; rfl
  have hcolne : SketchBookOperations.colSeparator ≠ [] := by decide
  refine ⟨?_, ?_, ?_, ?_, ?_⟩
  · simp [SketchBookOperations.get_references, hres]
  · rw [SketchBookOperations.parseRows, if_pos (Or.inl rfl)]
  · intro h
    rw [SketchBookOperations.parseRows, if_pos (Or.inr h)]
  · intro hn hp2 hrest
    have hno_n := not_occurs_of_occursB_false hcolne hn
    have hno_p := not_occurs_of_occursB_false hcolne hp2
    have hoccrow : occursB SketchBookOperations.colSeparator
        (n ++ SketchBookOperations.colSeparator ++ p2) = true :=
      (occursB_iff_occurs hcolne).mpr ⟨n, p2, rfl⟩
    have hrowne : n ++ SketchBookOperations.colSeparator ++ p2 ≠ [] := by
      intro hx
      rcases List.append_eq_nil.mp hx with ⟨hx1, _⟩
      exact hcolne (List.append_eq_nil.mp hx1).2
    have hsplit : splitOnSub SketchBookOperations.colSeparator
        (n ++ SketchBookOperations.colSeparator ++ p2) = [n, p2] := by
      rw [splitOnSub_sep hcolne
        (fun k h1 h2 => colSeparator_border_free k h2 h1) hno_n,
        splitOnSub_of_not_occurs hno_p]
    rw [SketchBookOperations.parseRows,
      if_neg (by
        rintro (hx | hx)
        · exact hrowne hx
        · rw [hoccrow] at hx
          exact Bool.true_eq_false ▸ hx),
      hsplit]
    rw [show (SketchBookOperations.parseRows sep rows) = .ok rest from hrest]
    show Except.ok
      ({ node := n, type := "reference".data,
         path := replaceOne ['/'] [sep] p2 } :: rest) = _
    rw [replaceOne_single]
  · intro h2
    have hocc : occursB SketchBookOperations.colSeparator row = true :=
      (occursB_iff_occCount_pos hcolne).mpr (by omega)
    have hrowne : row ≠ [] := by
      intro hx
      subst hx
      rw [occCount_nil] at h2
      omega
    have hlen : (splitOnSub SketchBookOperations.colSeparator row).length =
        occCount SketchBookOperations.colSeparator row + 1 :=
      splitOnSub_length
    rw [SketchBookOperations.parseRows,
      if_neg (by
        rintro (hx | hx)
        · exact hrowne hx
        · rw [hocc] at hx
          exact Bool.true_eq_false ▸ hx)]
    cases hsp : splitOnSub SketchBookOperations.colSeparator row with
    | nil => rfl
    | cons x xs =>
      cases xs with
      | nil => rfl
      | cons y ys =>
        cases ys with
        | nil =>
          exfalso
          rw [hsp] at hlen
          simp at hlen
          omega
        | cons z zs => rfl

/-- Witness for C9: one good row and one row with two separators. -/
theorem C9_get_references_parsing_witness :
    SketchBookOperations.parseRows '/'
      (("nodeA".data ++ SketchBookOperations.colSeparator ++
        "pathA".data) :: []) =
      .ok [{ node := "nodeA".data, type := "reference".data,
             path := "pathA".data.map
               (fun c => if c = '/' then '/' else c) }] ∧
    SketchBookOperations.parseRows '/' ["aCOLSEPbCOLSEPc".data] =
      .error PyErr.valueError := by
  have h := C9_get_references_parsing sampleApi boundEnv rfl '/' []
    "aCOLSEPbCOLSEPc".data "nodeA".data "pathA".data []
  exact ⟨h.2.2.2.1 (by decide) (by decide) rfl,
    h.2.2.2.2 (by
      simp [occCount, isPre, SketchBookOperations.colSeparator])⟩

/-! ## The startup runner (`engine.py`, `_run_app_instance_commands`) -/

namespace SketchBookEngine

/-- One entry of the engine's command registry as the startup runner reads
it: the command name, `value["properties"].get("app")`'s instance name
(absent when the command has no app), and the callback. -/
structure EngineCommand where
  name : String
  app_instance : Option String
  callback : Nat
  deriving DecidableEq, Repr

/-- One entry of the `run_at_startup` configuration setting. -/
structure StartupSetting where
  app_instance : String
  name : String
  deriving DecidableEq, Repr

/-- Observable steps of `_run_app_instance_commands`. -/
inductive StartupEvent where
  | warn_unknown_app (app_instance : String)
  | warn_unknown_command (app_instance : String) (name : String)
  | debug_run (app_instance : String) (name : String)
  | run (callback : Nat)
  deriving DecidableEq, Repr

/-- Python dict lookup over an insertion-ordered association list. -/
def lookupDict {α : Type} (d : List (String × α)) (k : String) :
    Option α :=
  (d.find? (fun kv => kv.1 == k)).map (·.2)

/-- Model of `app_instance_commands.setdefault(name, {})` followed by adding one
`command name: command function` entry. -/
def insertAppCommand (acc : List (String × List (String × Nat)))
    (inst : String) (entry : String × Nat) :
    List (String × List (String × Nat)) :=
  if (acc.find? (fun kv => kv.1 == inst)).isSome then
    acc.map (fun kv => if kv.1 == inst then (kv.1, kv.2 ++ [entry]) else kv)
  else acc ++ [(inst, [entry])]

/-- The dictionary mapping app instance names to the dictionaries of
commands they registered, built from the registry in registration
order. -/
def app_instance_commands (commands : List EngineCommand) :
    List (String × List (String × Nat)) :=
  commands.foldl
    (fun acc c =>
      match c.app_instance with
      | none => acc
      | some inst => insertAppCommand acc inst (c.name, c.callback))
    []

/-- One step of the `run_at_startup` loop: collect the commands selected
by one setting entry (and the log lines it emits). -/
def startupStep (appCmds : List (String × List (String × Nat)))
    (acc : List StartupEvent × List Nat) (s : StartupSetting) :
    List StartupEvent × List Nat :=
  match lookupDict appCmds s.app_instance with
  | none => (acc.1 ++ [StartupEvent.warn_unknown_app s.app_instance], acc.2)
  | some command_dict =>
      if s.name = "" then
        (acc.1 ++ command_dict.map
          (fun en => StartupEvent.debug_run s.app_instance en.1),
         acc.2 ++ command_dict.map (·.2))
      else
        match lookupDict command_dict s.name with
        | some cb =>
            (acc.1 ++ [StartupEvent.debug_run s.app_instance s.name],
             acc.2 ++ [cb])
        | none =>
            (acc.1 ++
              [StartupEvent.warn_unknown_command s.app_instance s.name],
             acc.2)

/-- Model of `SketchBookEngine._run_app_instance_commands`: build
`app_instance_commands`, walk the `run_at_startup` setting collecting
`commands_to_run`, bail when nothing was collected, and finally run the
collected commands.  The embedding returns the trace of log lines and
`run` events. -/
def run_app_instance_commands (commands : List EngineCommand)
    (run_at_startup : List StartupSetting) : List StartupEvent :=
  let appCmds := app_instance_commands commands
  let r := run_at_startup.foldl (startupStep appCmds) ([], [])
  if r.2 = [] then r.1
  else r.1 ++ r.2.map StartupEvent.run

/-- The registry commands registered by the given app instance, in
registration order. -/
def filteredCommands (commands : List EngineCommand) (inst : String) :
    List EngineCommand :=
  commands.filter (fun c => c.app_instance == some inst)

/-- Specification of one setting entry, in the claim's terms: all commands
of the instance when the entry's name is empty, the single named command
when it is registered for that instance, nothing otherwise. -/
def startupEntryCallbacks (commands : List EngineCommand)
    (s : StartupSetting) : List Nat :=
  if (filteredCommands commands s.app_instance).isEmpty then []
  else if s.name = "" then
    (filteredCommands commands s.app_instance).map (·.callback)
  else
    match commands.find?
      (fun c => c.name == s.name && c.app_instance == some s.app_instance)
    with
    | some c => [c.callback]
    | none => []

/-- The log lines one setting entry emits during collection. -/
def startupEntryEvents (commands : List EngineCommand)
    (s : StartupSetting) : List StartupEvent :=
  if (filteredCommands commands s.app_instance).isEmpty then
    [StartupEvent.warn_unknown_app s.app_instance]
  else if s.name = "" then
    (filteredCommands commands s.app_instance).map
      (fun c => StartupEvent.debug_run s.app_instance c.name)
  else
    match commands.find?
      (fun c => c.name == s.name && c.app_instance == some s.app_instance)
    with
    | some _ => [StartupEvent.debug_run s.app_instance s.name]
    | none => [StartupEvent.warn_unknown_command s.app_instance s.name]

def processEvents (commands : List EngineCommand)
    (settings : List StartupSetting) : List StartupEvent :=
  (settings.map (startupEntryEvents commands)).join

def selectedStartupCallbacks (commands : List EngineCommand)
    (settings : List StartupSetting) : List Nat :=
  (settings.map (startupEntryCallbacks commands)).join

theorem lookupDict_cons {α : Type} (x : String × α) (l : List (String × α))
    (k : String) :
    lookupDict (x :: l) k =
      if x.1 == k then some x.2 else lookupDict l k := by
  rw [lookupDict, List.find?_cons]
  cases h : (x.1 == k) <;> simp [h, lookupDict]

theorem lookupDict_append {α : Type} (k : String) :
    ∀ (l1 l2 : List (String × α)),
      lookupDict (l1 ++ l2) k =
        match lookupDict l1 k with
        | some v => some v
        | none => lookupDict l2 k := by
  intro l1
  induction l1 with
  | nil =>
    intro l2
    rw [List.nil_append]
    rfl
  | cons x l1 ih =>
    intro l2
    rw [List.cons_append, lookupDict_cons, lookupDict_cons]
    cases h : (x.1 == k)
    · rw [if_neg (by simp [h]), if_neg (by simp [h]), ih]
    · rw [if_pos rfl, if_pos rfl]

theorem lookupDict_none {α : Type} {acc : List (String × α)} {k : String}
    (h : (acc.find? (fun kv => kv.1 == k)).isSome = false) :
    lookupDict acc k = none := by
  rw [lookupDict]
  cases hf : acc.find? (fun kv => kv.1 == k)
  · rfl
  · rw [hf] at h
    simp at h

theorem lookupDict_map_inc {e : String × Nat} {inst : String} :
    ∀ acc : List (String × List (String × Nat)),
      (acc.find? (fun kv => kv.1 == inst)).isSome = true →
      lookupDict (acc.map
        (fun kv => if kv.1 == inst then (kv.1, kv.2 ++ [e]) else kv))
        inst =
      some ((lookupDict acc inst).getD [] ++ [e]) := by
  intro acc
  induction acc with
  | nil => intro h; simp at h
  | cons kv acc ih =>
    intro h
    rw [List.find?_cons] at h
    cases hkv : (kv.1 == inst)
    · have hkvp : ¬ kv.1 = inst := by simp [← beq_iff_eq (a := kv.1), hkv]
      rw [hkv] at h
      rw [List.map_cons, if_neg (by simp [hkvp]), lookupDict_cons,
        if_neg (by simp [hkvp]), lookupDict_cons, if_neg (by simp [hkvp])]
      exact ih h
    · have hkvp : kv.1 = inst := by
        have := hkv
        rw [beq_iff_eq] at this
        exact this
      rw [List.map_cons, if_pos (by simp [hkvp]), lookupDict_cons,
        lookupDict_cons, if_pos (by simp [hkvp]), if_pos (by simp [hkvp])]
      rfl

theorem lookupDict_map_other {e : String × Nat} {inst inst2 : String}
    (hne : ¬ inst2 = inst) :
    ∀ acc : List (String × List (String × Nat)),
      lookupDict (acc.map
        (fun kv => if kv.1 == inst2 then (kv.1, kv.2 ++ [e]) else kv))
        inst =
      lookupDict acc inst := by
  intro acc
  induction acc with
  | nil => rfl
  | cons kv acc ih =>
    rw [List.map_cons]
    by_cases hkv2 : kv.1 = inst2
    · have hkv : ¬ kv.1 = inst := by
        rw [hkv2]
        exact hne
      rw [if_pos (by simp [hkv2]), lookupDict_cons, lookupDict_cons,
        if_neg (by simp [hkv]), if_neg (by simp [hkv])]
      exact ih
    · rw [if_neg (by simp [hkv2]), lookupDict_cons, lookupDict_cons]
      by_cases hkv : kv.1 = inst
      · rw [if_pos (by simp [hkv]), if_pos (by simp [hkv])]
      · rw [if_neg (by simp [hkv]), if_neg (by simp [hkv])]
        exact ih

theorem lookupDict_insert_self (acc : List (String × List (String × Nat)))
    (inst : String) (e : String × Nat) :
    lookupDict (insertAppCommand acc inst e) inst =
      some ((lookupDict acc inst).getD [] ++ [e]) := by
  rw [insertAppCommand]
  cases hs : (acc.find? (fun kv => kv.1 == inst)).isSome
  · rw [if_neg (by simp [hs]), lookupDict_append, lookupDict_none hs,
      lookupDict_cons, if_pos (by simp)]
    rfl
  · rw [if_pos rfl]
    exact lookupDict_map_inc acc hs

theorem lookupDict_insert_other
    (acc : List (String × List (String × Nat))) {inst inst2 : String}
    (hne : ¬ inst2 = inst) (e : String × Nat) :
    lookupDict (insertAppCommand acc inst2 e) inst =
      lookupDict acc inst := by
  rw [insertAppCommand]
  cases hs : (acc.find? (fun kv => kv.1 == inst2)).isSome
  · rw [if_neg (by simp [hs]), lookupDict_append]
    cases hl : lookupDict acc inst
    · rw [lookupDict_cons, if_neg (by simp [hne])]
      rfl
    · rfl
  · rw [if_pos rfl]
    exact lookupDict_map_other hne acc

theorem lookup_app_fold (inst : String) :
    ∀ (cmds : List EngineCommand)
      (acc : List (String × List (String × Nat))),
      lookupDict (cmds.foldl
        (fun acc c =>
          match c.app_instance with
          | none => acc
          | some i => insertAppCommand acc i (c.name, c.callback)) acc)
        inst =
      match lookupDict acc inst with
      | some l =>
          some (l ++ (filteredCommands cmds inst).map
            (fun c => (c.name, c.callback)))
      | none =>
          if (filteredCommands cmds inst).isEmpty then none
          else some ((filteredCommands cmds inst).map
            (fun c => (c.name, c.callback))) := by
  intro cmds
  induction cmds with
  | nil =>
    intro acc
    rw [List.foldl_nil]
    cases hl : lookupDict acc inst
    · rfl
    · simp [filteredCommands]
  | cons c cmds ih =>
    intro acc
    rw [List.foldl_cons]
    cases happ : c.app_instance with
    | none =>
      have hfil : filteredCommands (c :: cmds) inst =
          filteredCommands cmds inst := by
        rw [filteredCommands, List.filter_cons, if_neg (by simp [happ])]
        rfl
      rw [ih, hfil]
    | some i =>
      by_cases hi : i = inst
      · have hfil : filteredCommands (c :: cmds) inst =
            c :: filteredCommands cmds inst := by
          rw [filteredCommands, List.filter_cons,
            if_pos (by simp [happ, hi])]
          rfl
        rw [hi, ih, lookupDict_insert_self, hfil]
        cases hl : lookupDict acc inst
        · simp
        · simp
      · have hfil : filteredCommands (c :: cmds) inst =
            filteredCommands cmds inst := by
          rw [filteredCommands, List.filter_cons,
            if_neg (by simp [happ, hi])]
          rfl
        rw [ih, lookupDict_insert_other _ hi, hfil]

theorem lookup_app_instance_commands (commands : List EngineCommand)
    (inst : String) :
    lookupDict (app_instance_commands commands) inst =
      if (filteredCommands commands inst).isEmpty then none
      else some ((filteredCommands commands inst).map
        (fun c => (c.name, c.callback))) := by
  rw [app_instance_commands, lookup_app_fold]
  rfl

theorem lookup_filtered_map (inst name : String) :
    ∀ commands : List EngineCommand,
      lookupDict ((filteredCommands commands inst).map
        (fun c => (c.name, c.callback))) name =
      (commands.find?
        (fun c => c.name == name && c.app_instance == some inst)).map
        (·.callback) := by
  intro commands
  induction commands with
  | nil => rfl
  | cons c cmds ih =>
    rw [filteredCommands, List.filter_cons, List.find?_cons]
    by_cases happ : c.app_instance = some inst
    · rw [if_pos (by simp [happ])]
      rw [List.map_cons, lookupDict_cons]
      by_cases hname : c.name = name
      · rw [if_pos (by simp [hname])]
        rw [show (c.name == name && c.app_instance == some inst) = true
          by simp [hname, happ]]
        rfl
      · rw [if_neg (by simp [hname])]
        rw [show (c.name == name && c.app_instance == some inst) = false
          by simp [hname]]
        exact ih
    · rw [if_neg (by simp [happ])]
      rw [show (c.name == name && c.app_instance == some inst) = false
        by simp [happ]]
      exact ih

theorem startupStep_spec (commands : List EngineCommand)
    (acc : List StartupEvent × List Nat) (s : StartupSetting) :
    startupStep (app_instance_commands commands) acc s =
      (acc.1 ++ startupEntryEvents commands s,
       acc.2 ++ startupEntryCallbacks commands s) := by
  have hfm := lookup_filtered_map s.app_instance s.name commands
  by_cases hemp : (filteredCommands commands s.app_instance).isEmpty = true
  · simp [startupStep, lookup_app_instance_commands, startupEntryEvents,
      startupEntryCallbacks, hemp]
  · by_cases hnm : s.name = ""
    · simp [startupStep, lookup_app_instance_commands, startupEntryEvents,
        startupEntryCallbacks, hemp, hnm, List.map_map, Function.comp]
    · cases hf : commands.find?
        (fun c => c.name == s.name && c.app_instance == some s.app_instance)
      · simp [startupStep, lookup_app_instance_commands,
          startupEntryEvents, startupEntryCallbacks, hemp, hnm, hfm, hf]
      · simp [startupStep, lookup_app_instance_commands,
          startupEntryEvents, startupEntryCallbacks, hemp, hnm, hfm, hf]

theorem startup_foldl_spec (commands : List EngineCommand) :
    ∀ (settings : List StartupSetting) (ev : List StartupEvent)
      (cbs : List Nat),
      settings.foldl (startupStep (app_instance_commands commands))
        (ev, cbs) =
      (ev ++ processEvents commands settings,
       cbs ++ selectedStartupCallbacks commands settings) := by
  intro settings
  induction settings with
  | nil =>
    intro ev cbs
    simp [processEvents, selectedStartupCallbacks]
  | cons s settings ih =>
    intro ev cbs
    rw [List.foldl_cons, startupStep_spec, ih]
    simp [processEvents, selectedStartupCallbacks, List.append_assoc]

theorem startupEntryEvents_no_run (commands : List EngineCommand)
    (s : StartupSetting) {e : StartupEvent}
    (he : e ∈ startupEntryEvents commands s) :
    ∀ cb : Nat, e ≠ StartupEvent.run cb := by
  intro cb
  rw [startupEntryEvents] at he
  split at he
  · simp at he
    subst he
    simp
  · split at he
    · obtain ⟨c, _, rfl⟩ := List.mem_map.mp he
      simp
    · split at he
      · simp at he
        subst he
        simp
      · simp at he
        subst he
        simp

end SketchBookEngine

/-- A pipeline-toolkit error (`sgtk.TankError`). -/
structure TankError where
  msg : String
  deriving DecidableEq, Repr

/-- An opaque toolkit context; only identity matters to the engine. -/
structure Context where
  id : Nat
  deriving DecidableEq, Repr

/-- An `sgtk` API instance as `refresh_context` uses it. -/
structure Sgtk where
  context_from_path : String → Context → Context

/-- The externals `refresh_context` consults:
`sketchbook_api.current_file_path()` and `sgtk.sgtk_from_path`. -/
structure RefreshEnv where
  current_file_path : Option String
  sgtk_from_path : String → Except TankError Sgtk

namespace SketchBookEngine

/-- Model of `SketchBookEngine.refresh_context` (engine.py): read the current file
path (None aborts the refresh); build a new sgtk instance from the path —
a `TankError` is logged via `logger.exception` and the method returns with
the context unchanged; otherwise compute the context for the path and
change to it when it differs.  Returns the resulting engine context and
the log lines. -/
def refresh_context (env : RefreshEnv) (ctx : Context) :
    Context × List LogEvent :=
  let log0 := [LogEvent.debug "Refreshing the context"]
  match env.current_file_path with
  | none =>
      (ctx, log0 ++
        [LogEvent.debug "New file call, aborting the refresh of the engine."])
  | some new_path =>
      match env.sgtk_from_path new_path with
      | .error e =>
          (ctx, log0 ++
            [LogEvent.exception
              ("Could not execute sgtk_from_path('" ++ e.msg ++ "')")])
      | .ok tk =>
          let ctx2 := tk.context_from_path new_path ctx
          if ctx2 ≠ ctx then
            (ctx2, log0 ++ [LogEvent.debug "Changing the context"])
          else
            (ctx, log0 ++ [LogEvent.debug "Context unchanged"])

end SketchBookEngine

/-- C7: framework-call failures are logged and swallowed with the engine
state unchanged.  When `sgtk_from_path` raises a `TankError`,
`refresh_context` logs the exception and returns normally with the
engine's context unchanged; and when a brush's palette accessor fails
(`AttributeError`, modelled by the palette map returning `none`),
`_resolve_palette_stylesheet_tokens` logs an `Invalid palette brush`
error for exactly the failing brushes and returns the sheet with the
remaining brushes' tokens substituted (the simultaneous replacement over
the defined brushes) instead of raising. -/
theorem C7_framework_failures_swallowed (env : RefreshEnv) (ctx : Context)
    (path : String) (e : TankError)
    (hpath : env.current_file_path = some path)
    (herr : env.sgtk_from_path path = .error e)
    (palette : String → Option QColor) (b : String)
    (hb : b ∈ paletteBrushes) (hbad : palette b = none) (s : List Char) :
    ((SketchBookEngine.refresh_context env ctx).1 = ctx ∧
     LogEvent.exception
       ("Could not execute sgtk_from_path('" ++ e.msg ++ "')") ∈
       (SketchBookEngine.refresh_context env ctx).2) ∧
    ((resolvePaletteStylesheetTokens palette s).2 =
       (paletteBrushes.filter (fun b2 => (palette b2).isNone)).map
         (fun b2 => LogEvent.error ("Invalid palette brush " ++ b2)) ∧
     LogEvent.error ("Invalid palette brush " ++ b) ∈
       (resolvePaletteStylesheetTokens palette s).2 ∧
     (resolvePaletteStylesheetTokens palette s).1 =
       simul (definedTokens palette) s) := by
  have hrc : SketchBookEngine.refresh_context env ctx =
      (ctx, [LogEvent.debug "Refreshing the context"] ++
        [LogEvent.exception
          ("Could not execute sgtk_from_path('" ++ e.msg ++ "')")]) := by
    simp only [SketchBookEngine.refresh_context, hpath, herr]
  have hpal := resolvePalette_eq palette s
  refine ⟨⟨by rw [hrc], by rw [hrc]; simp⟩, ?_, ?_, ?_⟩
  · rw [hpal]
  · rw [hpal]
    simp only []
    apply List.mem_map.mpr
    refine ⟨b, ?_, rfl⟩
    apply List.mem_filter.mpr
    exact ⟨hb, by rw [hbad]; rfl⟩
  · rw [hpal]

/-- Witness for C7 at a failing sgtk call and an all-failing palette. -/
theorem C7_framework_failures_swallowed_witness :
    (SketchBookEngine.refresh_context
      ⟨some "/p/scene.skb", fun _ => .error ⟨"no config"⟩⟩ ⟨3⟩).1 = ⟨3⟩ ∧
    (resolvePaletteStylesheetTokens (fun _ => none) "x".data).2 =
      (paletteBrushes.filter (fun b2 => ((fun _ => none) b2 :
        Option QColor).isNone)).map
        (fun b2 => LogEvent.error ("Invalid palette brush " ++ b2)) := by
  have h := C7_framework_failures_swallowed
    ⟨some "/p/scene.skb", fun _ => .error ⟨"no config"⟩⟩ ⟨3⟩
    "/p/scene.skb" ⟨"no config"⟩ rfl rfl (fun _ => none) "dark"
    (by decide) rfl "x".data
  exact ⟨h.1.1, h.2.1⟩

/-- C5: `_run_app_instance_commands` runs exactly the callbacks selected
by the `run_at_startup` setting entries — all commands registered by an
app instance when an entry's name is empty, the single named command when
it is registered for that instance — and an entry naming an unregistered
app instance or an unknown command contributes no callback, only a logged
warning; all selected callbacks are collected first and the `run` events
come after the whole setting list has been processed. -/
theorem C5_run_at_startup (commands : List SketchBookEngine.EngineCommand)
    (run_at_startup : List SketchBookEngine.StartupSetting)
    (s : SketchBookEngine.StartupSetting) :
    (SketchBookEngine.run_app_instance_commands commands run_at_startup =
      SketchBookEngine.processEvents commands run_at_startup ++
      (SketchBookEngine.selectedStartupCallbacks commands
        run_at_startup).map SketchBookEngine.StartupEvent.run) ∧
    (∀ e ∈ SketchBookEngine.processEvents commands run_at_startup,
      ∀ cb : Nat, e ≠ SketchBookEngine.StartupEvent.run cb) ∧
    ((SketchBookEngine.filteredCommands commands s.app_instance).isEmpty =
        true →
      SketchBookEngine.startupEntryCallbacks commands s = [] ∧
      SketchBookEngine.startupEntryEvents commands s =
        [SketchBookEngine.StartupEvent.warn_unknown_app s.app_instance]) ∧
    ((SketchBookEngine.filteredCommands commands s.app_instance).isEmpty =
        false →
      s.name ≠ "" →
      commands.find? (fun c => c.name == s.name &&
        c.app_instance == some s.app_instance) = none →
      SketchBookEngine.startupEntryCallbacks commands s = [] ∧
      SketchBookEngine.startupEntryEvents commands s =
        [SketchBookEngine.StartupEvent.warn_unknown_command
          s.app_instance s.name]) ∧
    ((SketchBookEngine.filteredCommands commands s.app_instance).isEmpty =
        false →
      s.name = "" →
      SketchBookEngine.startupEntryCallbacks commands s =
        (SketchBookEngine.filteredCommands commands s.app_instance).map
          (·.callback)) := by
  refine ⟨?_, ?_, ?_, ?_, ?_⟩
  · rw [SketchBookEngine.run_app_instance_commands]
    rw [SketchBookEngine.startup_foldl_spec]
    simp only [List.nil_append]
    by_cases hsel : SketchBookEngine.selectedStartupCallbacks commands
        run_at_startup = []
    · rw [if_pos hsel, hsel, List.map_nil, List.append_nil]
    · rw [if_neg hsel]
  · intro e he cb
    rw [SketchBookEngine.processEvents] at he
    obtain ⟨l, hl, hel⟩ := List.mem_join.mp he
    obtain ⟨s2, _, rfl⟩ := List.mem_map.mp hl
    exact SketchBookEngine.startupEntryEvents_no_run commands s2 hel cb
  · intro hemp
    constructor
    · rw [SketchBookEngine.startupEntryCallbacks, if_pos hemp]
    · rw [SketchBookEngine.startupEntryEvents, if_pos hemp]
  · intro hemp hnm hf
    have hemp2 : ¬ (SketchBookEngine.filteredCommands commands
        s.app_instance).isEmpty = true := by
      rw [hemp]
      simp
    constructor
    · rw [SketchBookEngine.startupEntryCallbacks, if_neg hemp2,
        if_neg hnm, hf]
    · rw [SketchBookEngine.startupEntryEvents, if_neg hemp2,
        if_neg hnm, hf]
  · intro hemp hnm
    have hemp2 : ¬ (SketchBookEngine.filteredCommands commands
        s.app_instance).isEmpty = true := by
      rw [hemp]
      simp
    rw [SketchBookEngine.startupEntryCallbacks, if_neg hemp2, if_pos hnm]

/-- Witness for C5: one registered command, one setting entry naming an
app instance that registered nothing. -/
theorem C5_run_at_startup_witness :
    SketchBookEngine.startupEntryCallbacks
      [⟨"File Open...", some "tk-multi-workfiles2", 1⟩]
      ⟨"tk-multi-shotgunpanel", ""⟩ = [] ∧
    SketchBookEngine.startupEntryEvents
      [⟨"File Open...", some "tk-multi-workfiles2", 1⟩]
      ⟨"tk-multi-shotgunpanel", ""⟩ =
      [SketchBookEngine.StartupEvent.warn_unknown_app
        "tk-multi-shotgunpanel"] :=
  (C5_run_at_startup [⟨"File Open...", some "tk-multi-workfiles2", 1⟩] []
    ⟨"tk-multi-shotgunpanel", ""⟩).2.2.1 (by decide)

/-! ## The menu (`python/tk_sketchbook/menu.py`) -/

namespace SketchBookMenu

def JUMP_TO_SG_TEXT : String := "Jump to Shotgun"
def JUMP_TO_FS_TEXT : String := "Jump to File System"
def SEPARATOR_ITEM : String := "_SEPARATOR_"

/-- One value of the engine's command registry as the menu reads it: the
`callback` entry (a falsy callback is `none`) and
`properties.get("type")`. -/
structure CommandData where
  callback : Option Nat
  ctype : Option String
  deriving DecidableEq, Repr

/-- Model of `SketchBookMenu.create_context_submenu`: the context name paired with
the Jump-to entries (both when the context has filesystem locations, only
Jump-to-Shotgun otherwise), a separator, and the names of the registered
commands whose properties type is `context_menu`. -/
def create_context_submenu (context_name : String)
    (filesystem_locations : Bool)
    (commands : List (String × CommandData)) : String × List String :=
  let names :=
    (if filesystem_locations then
      [JUMP_TO_SG_TEXT, JUMP_TO_FS_TEXT, SEPARATOR_ITEM]
    else [JUMP_TO_SG_TEXT, SEPARATOR_ITEM]) ++
    (commands.filter (fun c => c.2.ctype == some "context_menu")).map (·.1)
  (context_name, names)

/-- Model of `SketchBookMenu.create_apps_entries`: one `[name, []]` entry per
registered command whose properties type is not `context_menu`. -/
def create_apps_entries (commands : List (String × CommandData)) :
    List (String × List String) :=
  (commands.filter (fun c => !(c.2.ctype == some "context_menu"))).map
    (fun c => (c.1, []))

/-- Model of `SketchBookMenu.create`: the context submenu, a separator entry, a
second separator entry, then the apps entries (the favourites block is
commented out in the source). -/
def create (context_name : String) (filesystem_locations : Bool)
    (commands : List (String × CommandData)) :
    List (String × List String) :=
  ([create_context_submenu context_name filesystem_locations commands,
    (SEPARATOR_ITEM, [])] ++ [(SEPARATOR_ITEM, [])]) ++
  create_apps_entries commands

/-- The window-title dict of `SketchBookMenu.dialog_for_command`. -/
def windowTitleMap (command_name : String) : Option String :=
  if command_name = "Shotgun Panel..." then some "Shotgun: Shotgun"
  else if command_name = "Publish..." then some "Shotgun: Publish"
  else if command_name = "Load..." then some "Shotgun: Loader"
  else if command_name = "Work Area Info..." then
    some "Shotgun: Your Current Work Area"
  else if command_name = "Shotgun Python Console" then
    some "Shotgun: Shotgun Python Console"
  else if command_name = "File Open..." then some "Shotgun: File Open"
  else if command_name = "File Save..." then some "Shotgun: File Save"
  else none

/-- A Qt dialog the engine created, identified by id and window title. -/
structure Dialog where
  id : Nat
  windowTitle : String
  deriving DecidableEq, Repr

/-- Model of `SketchBookMenu.dialog_for_command`: the first created dialog whose
window title equals the title the dict maps the command to (an unmapped
command compares `None` against every title, never matching). -/
def dialog_for_command (dialogs : List Dialog) (command_name : String) :
    Option Dialog :=
  dialogs.find? (fun d => windowTitleMap command_name == some d.windowTitle)

/-- Observable steps of `do_command`. -/
inductive MenuEvent where
  | show (d : Dialog)
  | activateWindow (d : Dialog)
  | raiseWindow (d : Dialog)
  | jump_to_sg
  | jump_to_fs
  | runCallback (cb : Nat)
  deriving DecidableEq, Repr

/-- Model of `SketchBookMenu.bring_to_front`: re-show, activate and raise the
dialog found for the command. -/
def bring_to_front (dialogs : List Dialog) (command_name : String) :
    List MenuEvent :=
  match dialog_for_command dialogs command_name with
  | some d => [.show d, .activateWindow d, .raiseWindow d]
  | none => []

/-- Python dict lookup by key over the registry (raises `KeyError` at the
caller when absent). -/
def lookupCommand (commands : List (String × CommandData))
    (name : String) : Option CommandData :=
  (commands.find? (fun c => c.1 == name)).map (·.2)

/-- Model of `SketchBookMenu.do_command`: when no dialog for the command is already
open, run the Jump-to action or the command's callback (the registry value
is a non-empty dict, hence truthy; a missing registry key raises
`KeyError`; a falsy callback is skipped); otherwise only bring the
existing dialog to the front. -/
def do_command (dialogs : List Dialog)
    (commands : List (String × CommandData)) (command_name : String) :
    Except PyErr Unit × List MenuEvent :=
  if (dialog_for_command dialogs command_name).isSome = false then
    if command_name = JUMP_TO_SG_TEXT then (.ok (), [.jump_to_sg])
    else if command_name = JUMP_TO_FS_TEXT then (.ok (), [.jump_to_fs])
    else
      match lookupCommand commands command_name with
      | none => (.error (PyErr.keyError command_name), [])
      | some data =>
          match data.callback with
          | some cb => (.ok (), [.runCallback cb])
          | none => (.ok (), [])
  else (.ok (), bring_to_front dialogs command_name)

/-- An event that invokes a command's action (callback or Jump-to). -/
def isInvocation : MenuEvent → Bool
  | .runCallback _ => true
  | .jump_to_sg => true
  | .jump_to_fs => true
  | _ => false

end SketchBookMenu

/-- C4: `SketchBookMenu.create` builds the menu model: the first entry is
the context submenu — the context name paired with the Jump-to entries, a
separator, and every registered command of properties type
`context_menu` — followed by two separator entries with empty sub-lists,
followed by exactly one `[name, []]` entry per registered command whose
type is not `context_menu`; with distinct registry keys every registered
command name appears exactly once among the menu's command entries. -/
theorem C4_menu_create (context_name : String)
    (filesystem_locations : Bool)
    (commands : List (String × SketchBookMenu.CommandData))
    (hnodup : (commands.map (·.1)).Nodup) :
    (SketchBookMenu.create context_name filesystem_locations commands =
      (context_name,
        (if filesystem_locations then
          [SketchBookMenu.JUMP_TO_SG_TEXT, SketchBookMenu.JUMP_TO_FS_TEXT,
           SketchBookMenu.SEPARATOR_ITEM]
        else [SketchBookMenu.JUMP_TO_SG_TEXT,
              SketchBookMenu.SEPARATOR_ITEM]) ++
        (commands.filter
          (fun c => c.2.ctype == some "context_menu")).map (·.1)) ::
      (SketchBookMenu.SEPARATOR_ITEM, []) ::
      (SketchBookMenu.SEPARATOR_ITEM, []) ::
      (commands.filter
        (fun c => !(c.2.ctype == some "context_menu"))).map
          (fun c => (c.1, []))) ∧
    ((commands.filter
        (fun c => c.2.ctype == some "context_menu")).map (·.1) ++
      ((SketchBookMenu.create context_name filesystem_locations
        commands).drop 3).map (·.1)).Perm (commands.map (·.1)) ∧
    (∀ name ∈ commands.map (·.1),
      ((commands.filter
          (fun c => c.2.ctype == some "context_menu")).map (·.1) ++
        ((SketchBookMenu.create context_name filesystem_locations
          commands).drop 3).map (·.1)).count name = 1) := by
  have hstruct : SketchBookMenu.create context_name filesystem_locations
      commands =
      (context_name,
        (if filesystem_locations then
          [SketchBookMenu.JUMP_TO_SG_TEXT, SketchBookMenu.JUMP_TO_FS_TEXT,
           SketchBookMenu.SEPARATOR_ITEM]
        else [SketchBookMenu.JUMP_TO_SG_TEXT,
              SketchBookMenu.SEPARATOR_ITEM]) ++
        (commands.filter
          (fun c => c.2.ctype == some "context_menu")).map (·.1)) ::
      (SketchBookMenu.SEPARATOR_ITEM, []) ::
      (SketchBookMenu.SEPARATOR_ITEM, []) ::
      (commands.filter
        (fun c => !(c.2.ctype == some "context_menu"))).map
          (fun c => (c.1, [])) := rfl
  have hdrop : ((SketchBookMenu.create context_name filesystem_locations
      commands).drop 3).map (·.1) =
      (commands.filter
        (fun c => !(c.2.ctype == some "context_menu"))).map (·.1) := by
    rw [hstruct]
    simp only [List.drop_succ_cons, List.drop_zero, List.map_map]
    rfl
  have hperm : ((commands.filter
      (fun c => c.2.ctype == some "context_menu")).map (·.1) ++
      ((SketchBookMenu.create context_name filesystem_locations
        commands).drop 3).map (·.1)).Perm (commands.map (·.1)) := by
    rw [hdrop, ← List.map_append]
    exact (List.filter_append_perm _ commands).map (·.1)
  refine ⟨hstruct, hperm, ?_⟩
  intro name hname
  rw [hperm.count_eq]
  exact List.count_eq_one_of_mem hnodup hname

/-- Witness for C4 at a concrete two-command registry. -/
theorem C4_menu_create_witness :
    SketchBookMenu.create "Project demo" true
      [("Work Area Info...",
        { callback := some 1, ctype := some "context_menu" }),
       ("Publish...", { callback := some 2, ctype := none })] =
      [("Project demo",
        ["Jump to Shotgun", "Jump to File System", "_SEPARATOR_",
         "Work Area Info..."]),
       ("_SEPARATOR_", []), ("_SEPARATOR_", []), ("Publish...", [])] := by
  have h := C4_menu_create "Project demo" true
    [("Work Area Info...",
      { callback := some 1, ctype := some "context_menu" }),
     ("Publish...", { callback := some 2, ctype := none })] (by decide)
  rw [h.1]
  rfl

/-- C10: `do_command` never invokes a command's callback while a dialog
for that command is already open: when one of the created dialogs carries
the window title mapped to the command, `do_command` only re-shows,
activates and raises that dialog and runs no callback and no Jump-to
action; in every case the trace holds at most one invocation event. -/
theorem C10_no_callback_while_dialog_open
    (dialogs : List SketchBookMenu.Dialog)
    (commands : List (String × SketchBookMenu.CommandData))
    (command_name : String) (d : SketchBookMenu.Dialog) :
    (SketchBookMenu.dialog_for_command dialogs command_name = some d →
      SketchBookMenu.do_command dialogs commands command_name =
        (.ok (), [.show d, .activateWindow d, .raiseWindow d])) ∧
    ((SketchBookMenu.do_command dialogs commands command_name).2.countP
      SketchBookMenu.isInvocation ≤ 1) := by
  constructor
  · intro hfound
    rw [SketchBookMenu.do_command, if_neg (by simp [hfound])]
    rw [SketchBookMenu.bring_to_front, hfound]
  · rw [SketchBookMenu.do_command]
    split
    · split
      · simp [List.countP, List.countP.go, SketchBookMenu.isInvocation]
      · split
        · simp [List.countP, List.countP.go, SketchBookMenu.isInvocation]
        · split
          · simp [List.countP, List.countP.go]
          · split
            · simp [List.countP, List.countP.go,
                SketchBookMenu.isInvocation]
            · simp [List.countP, List.countP.go]
    · rw [SketchBookMenu.bring_to_front]
      split
      · simp [List.countP, List.countP.go, SketchBookMenu.isInvocation]
      · simp [List.countP, List.countP.go]

/-- Witness for C10 with a Publish dialog already open. -/
theorem C10_no_callback_while_dialog_open_witness :
    SketchBookMenu.do_command [⟨7, "Shotgun: Publish"⟩]
      [("Publish...", { callback := some 5, ctype := none })]
      "Publish..." =
      (.ok (), [.show ⟨7, "Shotgun: Publish"⟩,
        .activateWindow ⟨7, "Shotgun: Publish"⟩,
        .raiseWindow ⟨7, "Shotgun: Publish"⟩]) :=
  (C10_no_callback_while_dialog_open [⟨7, "Shotgun: Publish"⟩]
    [("Publish...", { callback := some 5, ctype := none })]
    "Publish..." ⟨7, "Shotgun: Publish"⟩).1 rfl

/-- C8: no retry anywhere.  Each file-operation wrapper invokes its own
underlying native call exactly once per invocation regardless of the
success flag the call returns (the call trace holds exactly one such
entry), and `execute_multiple_actions` dispatches the given actions in
order, stopping at the first action whose execution raises: when every
action succeeds all are dispatched once, and when one fails only the
earlier actions and the failing one have been dispatched. -/
theorem C8_no_retry (api : NativeApi) (env : Env)
    (hg : env.globals = boundGlobals api) (path : String)
    (hpath : env.fileExists path = true) (items : List String)
    (hitems : items ≠ []) (standalone : Bool)
    (execute_action : String → String → String → Except PyErr Unit)
    (pre : List SketchBookActions.ActionItem)
    (a : SketchBookActions.ActionItem)
    (post : List SketchBookActions.ActionItem) (e : PyErr) :
    ((SketchBookOperations.open_file_as_new_stage env path).2.count
      (ApiCall.open_file_as_new_stage path) = 1 ∧
    (SketchBookOperations.open_file_as_new_scene env path).2.count
      (ApiCall.open_file_as_new_scene path) = 1 ∧
    (SketchBookOperations.save_file env).2.count ApiCall.save_file = 1 ∧
    (SketchBookOperations.save_file_as env path).2.count
      (ApiCall.save_file_as path) = 1 ∧
    (SketchBookOperations.reset_scene env).2.count ApiCall.reset_scene = 1 ∧
    (SketchBookOperations.create_reference env path standalone).2.count
      (ApiCall.create_reference path) = 1 ∧
    (SketchBookOperations.import_file env path false standalone).2.count
      (ApiCall.import_file path) = 1 ∧
    (SketchBookOperations.create_texture_node env path standalone).2.count
      (ApiCall.create_texture_node path) = 1 ∧
    (SketchBookOperations.update_scene env items).2.count
      (ApiCall.update_scene items) = 1) ∧
    ((∀ b ∈ pre ++ a :: post,
        execute_action b.name b.params b.sg_data = .ok ()) →
      SketchBookActions.execute_multiple_actions execute_action
        (pre ++ a :: post) = (.ok (), pre ++ a :: post)) ∧
    ((∀ b ∈ pre, execute_action b.name b.params b.sg_data = .ok ()) →
      execute_action a.name a.params a.sg_data = .error e →
      SketchBookActions.execute_multiple_actions execute_action
        (pre ++ a :: post) = (.error e, pre ++ [a])) := by
  have hres : resolveName env.globals "alias_api" = .ok api := by
    rw [hg]; rfl
  refine ⟨⟨?_, ?_, ?_, ?_, ?_, ?_, ?_, ?_, ?_⟩, ?_, ?_⟩
  · rw [open_file_as_new_stage_trace hres]
    simp
  · rw [open_file_as_new_scene_trace hres]
    simp
  · rw [save_file_trace hres]
    simp
  · rw [save_file_as_trace hres]
    simp
  · rw [reset_scene_trace hres]
    simp
  · rw [create_reference_trace hres hpath]
    simp
  · rw [import_file_trace hres hpath]
    simp
  · rw [create_texture_node_trace hres hpath]
    simp
  · rw [update_scene_trace hres hitems]
    simp
  · exact SketchBookActions.execute_multiple_actions_all_ok
  · exact SketchBookActions.execute_multiple_actions_stops

/-- Witness for C8 at the concrete sample API and a two-action list whose
second action fails. -/
theorem C8_no_retry_witness :
    (SketchBookOperations.save_file boundEnv).2.count ApiCall.save_file
      = 1 ∧
    SketchBookActions.execute_multiple_actions
      (fun n _ _ => if n = "open_file" then .ok ()
        else .error (PyErr.exception "boom"))
      [⟨"open_file", "d1", "p1"⟩, ⟨"add_image", "d2", "p2"⟩] =
      (.error (PyErr.exception "boom"),
        [⟨"open_file", "d1", "p1"⟩, ⟨"add_image", "d2", "p2"⟩]) := by
  have h := C8_no_retry sampleApi boundEnv rfl "/f.skb" rfl ["item"]
    (by decide) true
    (fun n _ _ => if n = "open_file" then .ok ()
      else .error (PyErr.exception "boom"))
    [⟨"open_file", "d1", "p1"⟩] ⟨"add_image", "d2", "p2"⟩ []
    (PyErr.exception "boom")
  refine ⟨h.1.2.2.1, ?_⟩
  have hpre : ∀ b ∈ [(⟨"open_file", "d1", "p1"⟩ :
      SketchBookActions.ActionItem)],
      (if b.name = "open_file" then (Except.ok () : Except PyErr Unit)
        else .error (PyErr.exception "boom")) = .ok () := by
    intro b hb
    rw [List.mem_singleton.mp hb]
    rfl
  exact h.2.2 hpre rfl
